import Mathlib

/-!
Verification development for the CLMM liquidity-provider strategy engine.

Shallow embedding of the repository's core Rust code into Lean 4.
`rust_decimal::Decimal` values are modelled as exact rationals.  To keep all
embedded code executable by the kernel we use a small normalized-fraction
type `Dec` (integer numerator, natural denominator, reduced, positive
denominator for all values produced by its operations); the homomorphism
`Dec.toRat` into Mathlib's `ℚ` is proved for every operation below, so `Dec`
arithmetic is exact rational arithmetic.  `u128`/`u64`/`u32` counters are
modelled as `ℕ`, signed ticks as `ℤ`, Solana public keys as `ℕ`, and
wall-clock instants as natural-number seconds.  Fallible Rust functions
returning `Result` are modelled with `Except String`.
-/

set_option maxRecDepth 8000

namespace CLMM

/-- Exact rational number as an integer numerator over a natural
denominator.  Stands in for `rust_decimal::Decimal` (28-digit exact decimal
arithmetic in the source; the magnitudes arising in the embedded code are
far below the scale at which `Decimal` would round). -/
structure Dec where
  num : ℤ
  den : ℕ
deriving DecidableEq, Repr

namespace Dec

/-- Canonical form: reduced fraction, positive denominator, zero as `0/1`. -/
def norm (a : Dec) : Dec :=
  let g := a.num.natAbs.gcd a.den
  if g = 0 then ⟨0, 1⟩
  else
    let n : ℕ := a.num.natAbs / g
    let d : ℕ := a.den / g
    if a.num < 0 then ⟨-(n : ℤ), d⟩ else ⟨(n : ℤ), d⟩

/-- Addition. -/
def add (a b : Dec) : Dec :=
  norm ⟨a.num * (b.den : ℤ) + b.num * (a.den : ℤ), a.den * b.den⟩

/-- Negation. -/
def neg (a : Dec) : Dec := ⟨-a.num, a.den⟩

/-- Subtraction. -/
def sub (a b : Dec) : Dec := add a (neg b)

/-- Multiplication. -/
def mul (a b : Dec) : Dec := norm ⟨a.num * b.num, a.den * b.den⟩

/-- Multiplicative inverse; `0` maps to `0` (division by zero never occurs
on the embedded code paths, which guard all divisors). -/
def inv (a : Dec) : Dec :=
  if a.num < 0 then ⟨-(a.den : ℤ), a.num.natAbs⟩
  else if a.num = 0 then ⟨0, 1⟩
  else ⟨(a.den : ℤ), a.num.natAbs⟩

/-- Division. -/
def div (a b : Dec) : Dec := mul a (inv b)

/-- Embeds `Decimal::abs`. -/
def abs (a : Dec) : Dec := if a.num < 0 then neg a else a

/-- Strict order by cross multiplication. -/
def lt (a b : Dec) : Prop := a.num * (b.den : ℤ) < b.num * (a.den : ℤ)

/-- Non-strict order by cross multiplication. -/
def le (a b : Dec) : Prop := a.num * (b.den : ℤ) ≤ b.num * (a.den : ℤ)

instance : Add Dec := ⟨add⟩
instance : Neg Dec := ⟨neg⟩
instance : Sub Dec := ⟨sub⟩
instance : Mul Dec := ⟨mul⟩
instance : Div Dec := ⟨div⟩
instance : LT Dec := ⟨lt⟩
instance : LE Dec := ⟨le⟩

instance (a b : Dec) : Decidable (a < b) :=
  inferInstanceAs (Decidable (a.num * (b.den : ℤ) < b.num * (a.den : ℤ)))

instance (a b : Dec) : Decidable (a ≤ b) :=
  inferInstanceAs (Decidable (a.num * (b.den : ℤ) ≤ b.num * (a.den : ℤ)))

instance (n : ℕ) : OfNat Dec n := ⟨⟨(n : ℤ), 1⟩⟩

/-- Conversion from a natural number (`Decimal::from` on unsigned ints). -/
def ofN (n : ℕ) : Dec := ⟨(n : ℤ), 1⟩

/-- Interpretation into Mathlib's rationals. -/
def toRat (a : Dec) : ℚ := (a.num : ℚ) / (a.den : ℚ)

/-- A `Dec` is well formed when its denominator is non-zero.  All operations
preserve this and all literals satisfy it. -/
def WF (a : Dec) : Prop := a.den ≠ 0

end Dec

/-- Embeds `value_objects::price::Price`: a wrapper around a decimal value. -/
structure Price where
  value : Dec
deriving DecidableEq, Repr

/-- Embeds `Price::new`. -/
def Price.new (value : Dec) : Price := ⟨value⟩

/-- Embeds `value_objects::price_range::PriceRange`: a pair of prices. -/
structure PriceRange where
  lower_price : Price
  upper_price : Price
deriving DecidableEq, Repr

/-- Embeds `PriceRange::new`: stores the two bounds as given, with no
validation of positivity or ordering. -/
def PriceRange.new (lower upper : Price) : PriceRange :=
  { lower_price := lower, upper_price := upper }

/-- Embeds `PriceRange::contains`. -/
def PriceRange.contains (r : PriceRange) (price : Price) : Bool :=
  decide (price.value ≥ r.lower_price.value) &&
  decide (price.value ≤ r.upper_price.value)

/-- Embeds the free function `is_in_range` shared by both simulators: price
within the closed interval `[lower, upper]`. -/
def is_in_range (price : Dec) (r : PriceRange) : Bool :=
  decide (price ≥ r.lower_price.value) && decide (price ≤ r.upper_price.value)

/-- Maximum `u128` value, used by the `to_u128` conversions. -/
def U128_MAX : ℕ := 2 ^ 128 - 1

/-- Embeds `Decimal::to_u128`: fails on a negative value or one exceeding
`u128::MAX`, otherwise truncates toward zero (for a non-negative fraction,
numerator over denominator in natural-number division). -/
def toU128 (q : Dec) : Option ℕ :=
  if q < 0 then none
  else if Dec.ofN U128_MAX < q then none
  else some (q.num.toNat / q.den)

/-- Embeds `math::concentrated_liquidity::get_amount0_delta`:
`L * (hi − lo) / (lo * hi)` truncated to `u128`. -/
def get_amount0_delta (liquidity : ℕ) (sqrt_price_a sqrt_price_b : Dec) :
    Except String ℕ :=
  if sqrt_price_a ≤ 0 ∨ sqrt_price_b ≤ 0 then .error "Sqrt price must be positive"
  else
    let lower := if sqrt_price_a < sqrt_price_b then sqrt_price_a else sqrt_price_b
    let upper := if sqrt_price_a < sqrt_price_b then sqrt_price_b else sqrt_price_a
    let num := upper - lower
    let den := lower * upper
    if den = 0 then .error "Denominator zero"
    else
      let amount := Dec.ofN liquidity * (num / den)
      match toU128 amount with
      | some n => .ok n
      | none => .error "Overflow converting amount"

/-- Embeds `math::concentrated_liquidity::get_amount1_delta`:
`L * (hi − lo)` truncated to `u128`. -/
def get_amount1_delta (liquidity : ℕ) (sqrt_price_a sqrt_price_b : Dec) :
    Except String ℕ :=
  let lower := if sqrt_price_a < sqrt_price_b then sqrt_price_a else sqrt_price_b
  let upper := if sqrt_price_a < sqrt_price_b then sqrt_price_b else sqrt_price_a
  let amount := Dec.ofN liquidity * (upper - lower)
  match toU128 amount with
  | some n => .ok n
  | none => .error "Overflow converting amount"

/-- Newton iteration for the integer square root, with explicit fuel so the
recursion is structural. -/
def sqrtIter : ℕ → ℕ → ℕ → ℕ
  | 0, _, guess => guess
  | fuel + 1, n, guess =>
    let next := (guess + n / guess) / 2
    if next < guess then sqrtIter fuel n next else guess

/-- Integer square root (floor). -/
def natSqrtFloor (n : ℕ) : ℕ :=
  if n ≤ 1 then n else sqrtIter n n (n / 2)

/-- Models the `sqrt` closure of `calculate_il_concentrated`, which converts
a `Decimal` to `f64`, applies the IEEE-754 square root, and converts back.
On any fraction whose numerator and denominator are perfect squares the
IEEE-754 computation is exact and agrees with this function; the concrete
evaluations in this file only ever take square roots of such inputs. -/
def decSqrt (q : Dec) : Dec :=
  ⟨(natSqrtFloor q.num.toNat : ℤ), natSqrtFloor q.den⟩

/-- Embeds the `get_amounts` closure of `calculate_il_concentrated`: token
amounts held by the position at sqrt-price `p_sqrt` under the three-region
rule (all token0 below the range, all token1 at or above the upper bound, a
mix inside). -/
def ilGetAmounts (liquidity : ℕ) (sqrt_lower sqrt_upper p_sqrt : Dec) :
    Except String (Dec × Dec) :=
  if p_sqrt < sqrt_lower then do
    let a0 ← get_amount0_delta liquidity sqrt_lower sqrt_upper
    pure (Dec.ofN a0, 0)
  else if p_sqrt ≥ sqrt_upper then do
    let a1 ← get_amount1_delta liquidity sqrt_lower sqrt_upper
    pure (0, Dec.ofN a1)
  else do
    let a0 ← get_amount0_delta liquidity p_sqrt sqrt_upper
    let a1 ← get_amount1_delta liquidity sqrt_lower p_sqrt
    pure (Dec.ofN a0, Dec.ofN a1)

/-- Embeds `metrics::impermanent_loss::calculate_il_concentrated`,
parametrised by the square-root routine (`f64`-based in the source).  Uses
the synthetic liquidity constant `10^18` and compares the value of the LP
position against holding the entry-time amounts, both priced at the current
price. -/
def calculate_il_concentrated (sqrtFn : Dec → Dec)
    (entry_price current_price price_lower price_upper : Dec) :
    Except String Dec :=
  if entry_price.num = 0 ∨ price_lower.num = 0 ∨ price_upper.num = 0 then
    .error "Prices must be non-zero"
  else if price_lower ≥ price_upper then .error "Invalid range"
  else do
    let liquidity : ℕ := 1000000000000000000
    let sqrt_entry := sqrtFn entry_price
    let sqrt_curr := sqrtFn current_price
    let sqrt_lower := sqrtFn price_lower
    let sqrt_upper := sqrtFn price_upper
    let (x0, y0) ← ilGetAmounts liquidity sqrt_lower sqrt_upper sqrt_entry
    let (x1, y1) ← ilGetAmounts liquidity sqrt_lower sqrt_upper sqrt_curr
    let value_held := x0 * current_price + y0
    let value_lp := x1 * current_price + y1
    if value_held.num = 0 then pure 0
    else pure ((value_lp - value_held) / value_held)

/-- The concentrated IL computation with the concrete square-root routine,
as the `Option`-valued oracle the simulators consume
(`calculate_il_concentrated(...).unwrap_or(Decimal::ZERO)` is
`(ilConcentratedDec ...).getD 0`). -/
def ilConcentratedDec (entry current lower upper : Dec) : Option Dec :=
  (calculate_il_concentrated decSqrt entry current lower upper).toOption

/-- Embeds `strategies::RebalanceReason` (the closed reason set matched by
`format_reason` in the strategy simulator). -/
inductive RebalanceReason where
  | periodic (steps_elapsed : ℕ)
  | priceThreshold (price_change_pct : Dec)
  | outOfRange (current_price : Dec)
  | ilThreshold (il_pct : Dec)
  | manual
deriving DecidableEq, Repr

/-- Embeds `strategies::RebalanceAction`: the action returned by a strategy
evaluation, exactly one of hold, rebalance, close. -/
inductive RebalanceAction where
  | hold
  | rebalance (new_range : PriceRange) (reason : RebalanceReason)
  | close (reason : RebalanceReason)
deriving DecidableEq, Repr

/-- Embeds `strategies::StrategyContext`: the per-step inputs handed to a
strategy by the simulator (field set as constructed in
`simulate_with_strategy`). -/
structure StrategyContext where
  current_price : Price
  current_range : PriceRange
  entry_price : Price
  steps_since_open : ℕ
  steps_since_rebalance : ℕ
  current_il_pct : Dec
  total_fees_earned : Dec
deriving Repr

/-- Modelled from the spec: `StrategyContext::is_in_range` (from the
strategies module, whose shared `mod.rs` is not under `src/`): the current
price lies within the closed current range, consistent with every
`is_in_range`/`contains` in the sources. -/
def StrategyContext.is_in_range (ctx : StrategyContext) : Bool :=
  decide (ctx.current_price.value ≥ ctx.current_range.lower_price.value) &&
  decide (ctx.current_price.value ≤ ctx.current_range.upper_price.value)

/-- Modelled from the spec: `calculate_new_range` (default method of the
`RebalanceStrategy` trait, whose `mod.rs` is not under `src/`): the new
range is centred on the current price with total width
`price * width_pct`, i.e. bounds `p * (1 − width/2)` and `p * (1 + width/2)`
— pinned by the unit test in `strategies/periodic.rs` (width `0.2` at price
`105` gives `[94.5, 115.5]`). -/
def calculate_new_range (price : Price) (width_pct : Dec) : PriceRange :=
  let half := price.value * width_pct / 2
  PriceRange.new (Price.new (price.value - half)) (Price.new (price.value + half))

/-- A rebalance strategy, as the `evaluate` method of the
`RebalanceStrategy` trait: a map from context to action. -/
def Strategy : Type := StrategyContext → RebalanceAction

/-- Embeds `strategies::static_range::StaticRange::evaluate`: never
rebalances. -/
def StaticRange.evaluate : Strategy := fun _ => RebalanceAction.hold

/-- Embeds `strategies::periodic::PeriodicRebalance`. -/
structure PeriodicRebalance where
  rebalance_interval : ℕ
  range_width_pct : Dec
  only_when_out_of_range : Bool
deriving Repr

/-- Embeds `PeriodicRebalance::new`: `only_when_out_of_range` defaults to
`false`. -/
def PeriodicRebalance.new (rebalance_interval : ℕ) (range_width_pct : Dec) :
    PeriodicRebalance :=
  { rebalance_interval := rebalance_interval
    range_width_pct := range_width_pct
    only_when_out_of_range := false }

/-- Embeds `PeriodicRebalance::evaluate`: hold until
`steps_since_rebalance` reaches the interval (and, when configured, while
still in range), otherwise rebalance to a freshly centred range. -/
def PeriodicRebalance.evaluate (s : PeriodicRebalance) : Strategy := fun ctx =>
  if ctx.steps_since_rebalance < s.rebalance_interval then .hold
  else if s.only_when_out_of_range && ctx.is_in_range then .hold
  else
    .rebalance (calculate_new_range ctx.current_price s.range_width_pct)
      (.periodic ctx.steps_since_rebalance)

/-- Stands in for `Decimal`'s `Display` rendering inside formatted reason
strings (the digit rendering plays no role in any verified property). -/
def Dec.render (a : Dec) : String := toString a.num ++ "/" ++ toString a.den

/-- Embeds `format_reason` from the strategy simulator. -/
def format_reason : RebalanceReason → String
  | .periodic steps_elapsed =>
      "Periodic rebalance after " ++ toString steps_elapsed ++ " steps"
  | .priceThreshold price_change_pct =>
      "Price moved " ++ (price_change_pct).render ++ "%"
  | .outOfRange current_price =>
      "Price " ++ (current_price).render ++ " out of range"
  | .ilThreshold il_pct =>
      "IL exceeded threshold: " ++ (il_pct * 100).render ++ "%"
  | .manual => "Manual rebalance"

/-- Embeds `event::SimulationEventType`. -/
inductive SimulationEventType where
  | positionOpened
  | positionClosed
  | rebalance
  | feeCollection
  | outOfRange
  | backInRange
  | swap
  | liquidityAdded
  | liquidityRemoved
deriving DecidableEq, BEq, Repr

/-- Embeds `event::EventData`, the event-specific payload. -/
inductive SimEventData where
  | none
  | positionOpened (capital : Dec) (range : PriceRange)
  | positionClosed (final_value total_fees final_il_pct net_pnl : Dec)
  | rebalance (old_range new_range : PriceRange) (reason : String) (cost : Dec)
  | feeCollection (amount cumulative : Dec)
  | rangeTransition (entering : Bool) (range : PriceRange)
  | swap (volume : Dec) (is_buy : Bool) (price_impact : Dec)
deriving DecidableEq, Repr

/-- Embeds `event::SimulationEvent`. -/
structure SimulationEvent where
  step : ℕ
  timestamp : Option ℕ
  event_type : SimulationEventType
  price : Price
  data : SimEventData
deriving DecidableEq, Repr

/-- Embeds `SimulationEvent::position_opened`. -/
def SimulationEvent.position_opened (step : ℕ) (price : Price) (capital : Dec)
    (range : PriceRange) : SimulationEvent :=
  ⟨step, Option.none, .positionOpened, price, .positionOpened capital range⟩

/-- Embeds `SimulationEvent::position_closed`. -/
def SimulationEvent.position_closed (step : ℕ) (price : Price)
    (final_value total_fees final_il_pct net_pnl : Dec) : SimulationEvent :=
  ⟨step, Option.none, .positionClosed, price,
    .positionClosed final_value total_fees final_il_pct net_pnl⟩

/-- Embeds `SimulationEvent::rebalance`. -/
def SimulationEvent.rebalance (step : ℕ) (price : Price)
    (old_range new_range : PriceRange) (reason : String) (cost : Dec) :
    SimulationEvent :=
  ⟨step, Option.none, .rebalance, price, .rebalance old_range new_range reason cost⟩

/-- Embeds `SimulationEvent::fee_collection`. -/
def SimulationEvent.fee_collection (step : ℕ) (price : Price)
    (amount cumulative : Dec) : SimulationEvent :=
  ⟨step, Option.none, .feeCollection, price, .feeCollection amount cumulative⟩

/-- Embeds `SimulationEvent::out_of_range`. -/
def SimulationEvent.out_of_range (step : ℕ) (price : Price) (range : PriceRange) :
    SimulationEvent :=
  ⟨step, Option.none, .outOfRange, price, .rangeTransition false range⟩

/-- Embeds `SimulationEvent::back_in_range`. -/
def SimulationEvent.back_in_range (step : ℕ) (price : Price) (range : PriceRange) :
    SimulationEvent :=
  ⟨step, Option.none, .backInRange, price, .rangeTransition true range⟩

/-- Embeds `state::SimulationConfig`. -/
structure SimulationConfig where
  initial_capital : Dec
  initial_range : PriceRange
  fee_rate : Dec
  pool_liquidity : ℕ
  rebalance_cost : Dec
  steps : ℕ
  step_duration_seconds : ℕ
deriving Repr

/-- Embeds `SimulationConfig::new` with its documented defaults
(`fee_rate = 0.003`, `pool_liquidity = 1_000_000`, `rebalance_cost = 1`,
`steps = 100`, `step_duration_seconds = 3600`). -/
def SimulationConfig.new (initial_capital : Dec) (initial_range : PriceRange) :
    SimulationConfig :=
  { initial_capital := initial_capital
    initial_range := initial_range
    fee_rate := ⟨3, 1000⟩
    pool_liquidity := 1000000
    rebalance_cost := 1
    steps := 100
    step_duration_seconds := 3600 }

/-- Embeds `SimulationConfig::with_fee_rate`. -/
def SimulationConfig.with_fee_rate (c : SimulationConfig) (fee_rate : Dec) :
    SimulationConfig := { c with fee_rate := fee_rate }

/-- Embeds `SimulationConfig::with_pool_liquidity`. -/
def SimulationConfig.with_pool_liquidity (c : SimulationConfig) (l : ℕ) :
    SimulationConfig := { c with pool_liquidity := l }

/-- Embeds `SimulationConfig::with_rebalance_cost`. -/
def SimulationConfig.with_rebalance_cost (c : SimulationConfig) (cost : Dec) :
    SimulationConfig := { c with rebalance_cost := cost }

/-- Embeds `SimulationConfig::with_steps`. -/
def SimulationConfig.with_steps (c : SimulationConfig) (steps : ℕ) :
    SimulationConfig := { c with steps := steps }

/-- Embeds `state::SimulationSummary`. -/
structure SimulationSummary where
  config : SimulationConfig
  entry_price : Price
  final_price : Price
  total_steps : ℕ
  steps_in_range : ℕ
  final_value : Dec
  total_fees : Dec
  final_il_pct : Dec
  net_pnl : Dec
  net_pnl_pct : Dec
  rebalance_count : ℕ
  total_rebalance_cost : Dec
  max_il_pct : Dec
  max_drawdown_pct : Dec
  hodl_value : Dec
  vs_hodl : Dec
deriving Repr

/-- The IL oracle consumed by the simulators: the simulators call
`calculate_il_concentrated(entry, price, lower, upper).unwrap_or(ZERO)`;
the oracle is kept as a parameter because the source routine's square roots
go through `f64` (instantiate with `ilConcentratedDec` for exact inputs). -/
def IlFn : Type := Dec → Dec → Dec → Dec → Option Dec

/-- A volume model, as its `get_volume(step)` method. -/
def VolumeFn : Type := ℕ → Dec

/-- A pool-liquidity model, as its `get_liquidity(step)` method. -/
def LiquidityFn : Type := ℕ → ℕ

/-- Embeds `volume::ConstantVolume` (its `get_volume` returns the stored
decimal at every step). -/
def ConstantVolume (v : Dec) : VolumeFn := fun _ => v

/-- Embeds `liquidity::ConstantLiquidity`. -/
def ConstantLiquidity (l : ℕ) : LiquidityFn := fun _ => l

/-- Loop state of `simulate_with_strategy`: the mutable locals of the Rust
step loop, plus a `closed` flag standing for the `break` taken on a `Close`
action (once set, further steps leave the state untouched, exactly as the
broken-out-of loop does). -/
structure StratState where
  current_range : PriceRange
  events : List SimulationEvent
  cumulative_fees : Dec
  steps_in_range : ℕ
  max_il : Dec
  max_value : Dec
  max_drawdown : Dec
  rebalance_count : ℕ
  total_rebalance_cost : Dec
  steps_since_rebalance : ℕ
  pnl_history : List Dec
  il_history : List Dec
  fee_history : List Dec
  range_history : List (ℕ × PriceRange)
  was_in_range : Bool
  closed : Bool
deriving Repr

/-- Fee accrual, value tracking and history bookkeeping shared by the
`Rebalance` and `Hold` arms of the loop body (the code after the `match`
in the Rust loop). -/
def stratStepTail (config : SimulationConfig) (volume_model : VolumeFn)
    (liquidity_model : LiquidityFn) (step : ℕ) (price : Price)
    (il_decimal : Dec) (stA : StratState) : StratState :=
  let in_range_now := is_in_range price.value stA.current_range
  let volume := volume_model step
  let pool_liquidity := liquidity_model step
  let step_fees :=
    if pool_liquidity > 0 then
      volume * config.fee_rate * (Dec.ofN config.pool_liquidity / Dec.ofN pool_liquidity)
    else 0
  let fees2 :=
    if in_range_now then stA.cumulative_fees + step_fees else stA.cumulative_fees
  let events2 :=
    if in_range_now then
      if step_fees > 0 then
        stA.events ++ [SimulationEvent.fee_collection step price step_fees fees2]
      else stA.events
    else stA.events
  let steps_in_range2 :=
    if in_range_now then stA.steps_in_range + 1 else stA.steps_in_range
  let il_amount := config.initial_capital * il_decimal.abs
  let position_value :=
    config.initial_capital - il_amount + fees2 - stA.total_rebalance_cost
  let net_pnl := position_value - config.initial_capital
  let max_value := if position_value > stA.max_value then position_value else stA.max_value
  let drawdown :=
    if max_value.num = 0 then 0 else (position_value - max_value) / max_value
  let max_drawdown := if drawdown < stA.max_drawdown then drawdown else stA.max_drawdown
  { stA with
    steps_in_range := steps_in_range2
    cumulative_fees := fees2
    events := events2
    max_value := max_value
    max_drawdown := max_drawdown
    pnl_history := stA.pnl_history ++ [net_pnl]
    il_history := stA.il_history ++ [il_decimal]
    fee_history := stA.fee_history ++ [fees2] }

/-- One iteration of the `simulate_with_strategy` loop, in source order:
range-transition events, IL for the strategy context, `max_il` update,
strategy evaluation, the three action arms (rebalance charges its cost and
re-centres before fee accrual; close records the closing event and stops
iteration; hold bumps `steps_since_rebalance`), then fee accrual and value
tracking. -/
def stratStep (ilFn : IlFn) (config : SimulationConfig) (entry_price : Price)
    (strategy : Strategy) (volume_model : VolumeFn)
    (liquidity_model : LiquidityFn) (st : StratState) (sp : ℕ × Price) :
    StratState :=
  if st.closed then st
  else
    let step := sp.1
    let price := sp.2
    let in_range := is_in_range price.value st.current_range
    let events1 :=
      if in_range && !st.was_in_range then
        st.events ++ [SimulationEvent.back_in_range step price st.current_range]
      else if !in_range && st.was_in_range then
        st.events ++ [SimulationEvent.out_of_range step price st.current_range]
      else st.events
    let il_decimal :=
      (ilFn entry_price.value price.value st.current_range.lower_price.value
        st.current_range.upper_price.value).getD 0
    let max_il := if il_decimal < st.max_il then il_decimal else st.max_il
    let context : StrategyContext :=
      { current_price := price
        current_range := st.current_range
        entry_price := entry_price
        steps_since_open := step
        steps_since_rebalance := st.steps_since_rebalance
        current_il_pct := il_decimal
        total_fees_earned := st.cumulative_fees }
    match strategy context with
    | .close _ =>
      { st with
        events := events1 ++ [SimulationEvent.position_closed step price
          (config.initial_capital - config.initial_capital * il_decimal.abs
            + st.cumulative_fees - st.total_rebalance_cost)
          st.cumulative_fees il_decimal
          (st.cumulative_fees - config.initial_capital * il_decimal.abs
            - st.total_rebalance_cost)]
        max_il := max_il
        was_in_range := in_range
        closed := true }
    | .rebalance new_range reason =>
      stratStepTail config volume_model liquidity_model step price il_decimal
        { st with
          current_range := new_range
          rebalance_count := st.rebalance_count + 1
          total_rebalance_cost := st.total_rebalance_cost + config.rebalance_cost
          steps_since_rebalance := 0
          range_history := st.range_history ++ [(step, new_range)]
          events := events1 ++ [SimulationEvent.rebalance step price
            st.current_range new_range (format_reason reason) config.rebalance_cost]
          was_in_range := is_in_range price.value new_range
          max_il := max_il }
    | .hold =>
      stratStepTail config volume_model liquidity_model step price il_decimal
        { st with
          steps_since_rebalance := st.steps_since_rebalance + 1
          events := events1
          was_in_range := in_range
          max_il := max_il }

/-- The initial loop state of `simulate_with_strategy`: initial range and
its first `range_history` entry, the `PositionOpened` event, and zeroed
accumulators. -/
def stratInitState (config : SimulationConfig) (entry_price : Price) : StratState :=
  { current_range := config.initial_range
    events := [SimulationEvent.position_opened 0 entry_price
      config.initial_capital config.initial_range]
    cumulative_fees := 0
    steps_in_range := 0
    max_il := 0
    max_value := config.initial_capital
    max_drawdown := 0
    rebalance_count := 0
    total_rebalance_cost := 0
    steps_since_rebalance := 0
    pnl_history := []
    il_history := []
    fee_history := []
    range_history := [(0, config.initial_range)]
    was_in_range := is_in_range entry_price.value config.initial_range
    closed := false }

/-- Embeds `strategy_simulator::StrategySimulationResult`. -/
structure StrategySimulationResult where
  summary : SimulationSummary
  events : List SimulationEvent
  prices : List Price
  pnl_history : List Dec
  il_history : List Dec
  fee_history : List Dec
  range_history : List (ℕ × PriceRange)
deriving Repr

/-- Embeds `strategy_simulator::empty_result`: the zero-activity result for
an empty price sequence. -/
def strategyEmptyResult (config : SimulationConfig) : StrategySimulationResult :=
  let entry_price := Price.new 0
  { summary :=
      { config := config
        entry_price := entry_price
        final_price := entry_price
        total_steps := 0
        steps_in_range := 0
        final_value := config.initial_capital
        total_fees := 0
        final_il_pct := 0
        net_pnl := 0
        net_pnl_pct := 0
        rebalance_count := 0
        total_rebalance_cost := 0
        max_il_pct := 0
        max_drawdown_pct := 0
        hodl_value := config.initial_capital
        vs_hodl := 0 }
    events := []
    prices := []
    pnl_history := []
    il_history := []
    fee_history := []
    range_history := [] }

/-- Embeds `strategy_simulator::simulate_with_strategy`.  The price path
generator is represented by the list of prices it generates, the volume and
liquidity models by their per-step methods, and the strategy by its
`evaluate` method; the IL routine is the oracle parameter.  The
`to_f64`-and-back round trip of the final price ratio is modelled as the
exact ratio. -/
def simulate_with_strategy (ilFn : IlFn) (config : SimulationConfig)
    (prices : List Price) (volume_model : VolumeFn)
    (liquidity_model : LiquidityFn) (strategy : Strategy) :
    StrategySimulationResult :=
  match prices with
  | [] => strategyEmptyResult config
  | entry_price :: _ =>
    let st := prices.enum.foldl
      (stratStep ilFn config entry_price strategy volume_model liquidity_model)
      (stratInitState config entry_price)
    let final_price := (prices.getLast?).getD entry_price
    let final_il :=
      (ilFn entry_price.value final_price.value st.current_range.lower_price.value
        st.current_range.upper_price.value).getD 0
    let final_price_ratio :=
      if entry_price.value.num = 0 then (1 : Dec)
      else final_price.value / entry_price.value
    let il_amount := config.initial_capital * final_il.abs
    let final_value :=
      config.initial_capital - il_amount + st.cumulative_fees - st.total_rebalance_cost
    let net_pnl := final_value - config.initial_capital
    let net_pnl_pct :=
      if config.initial_capital.num = 0 then 0 else net_pnl / config.initial_capital
    let hodl_value := config.initial_capital * final_price_ratio
    let vs_hodl := final_value - hodl_value
    let events2 :=
      if st.events.any (fun e => e.event_type == SimulationEventType.positionClosed) then
        st.events
      else
        st.events ++ [SimulationEvent.position_closed prices.length final_price
          final_value st.cumulative_fees final_il net_pnl]
    { summary :=
        { config := config
          entry_price := entry_price
          final_price := final_price
          total_steps := prices.length
          steps_in_range := st.steps_in_range
          final_value := final_value
          total_fees := st.cumulative_fees
          final_il_pct := final_il
          net_pnl := net_pnl
          net_pnl_pct := net_pnl_pct
          rebalance_count := st.rebalance_count
          total_rebalance_cost := st.total_rebalance_cost
          max_il_pct := st.max_il
          max_drawdown_pct := st.max_drawdown
          hodl_value := hodl_value
          vs_hodl := vs_hodl }
      events := events2
      prices := prices
      pnl_history := st.pnl_history
      il_history := st.il_history
      fee_history := st.fee_history
      range_history := st.range_history }

/-- Loop state of `simulate_position` (static range, no strategy). -/
structure PosState where
  events : List SimulationEvent
  cumulative_fees : Dec
  steps_in_range : ℕ
  max_il : Dec
  max_value : Dec
  max_drawdown : Dec
  pnl_history : List Dec
  il_history : List Dec
  fee_history : List Dec
  was_in_range : Bool
deriving Repr

/-- One iteration of the `simulate_position` loop, in source order:
range-transition events, fee accrual while in range, IL, value and
drawdown tracking, histories. -/
def posStep (ilFn : IlFn) (config : SimulationConfig) (entry_price : Price)
    (volume_model : VolumeFn) (liquidity_model : LiquidityFn)
    (st : PosState) (sp : ℕ × Price) : PosState :=
  let step := sp.1
  let price := sp.2
  let range := config.initial_range
  let in_range := is_in_range price.value range
  let events1 :=
    if in_range && !st.was_in_range then
      st.events ++ [SimulationEvent.back_in_range step price range]
    else if !in_range && st.was_in_range then
      st.events ++ [SimulationEvent.out_of_range step price range]
    else st.events
  let fees_events :=
    if in_range then
      let volume := volume_model step
      let pool_liquidity := liquidity_model step
      let step_fees :=
        if pool_liquidity > 0 then
          volume * config.fee_rate * (Dec.ofN config.pool_liquidity / Dec.ofN pool_liquidity)
        else 0
      let fees2 := st.cumulative_fees + step_fees
      let ev2 :=
        if step_fees > 0 then
          events1 ++ [SimulationEvent.fee_collection step price step_fees fees2]
        else events1
      (st.steps_in_range + 1, fees2, ev2)
    else (st.steps_in_range, st.cumulative_fees, events1)
  let il_decimal :=
    (ilFn entry_price.value price.value range.lower_price.value
      range.upper_price.value).getD 0
  let max_il := if il_decimal < st.max_il then il_decimal else st.max_il
  let il_amount := config.initial_capital * il_decimal.abs
  let position_value := config.initial_capital - il_amount + fees_events.2.1
  let net_pnl := position_value - config.initial_capital
  let max_value := if position_value > st.max_value then position_value else st.max_value
  let drawdown :=
    if max_value.num = 0 then 0 else (position_value - max_value) / max_value
  let max_drawdown := if drawdown < st.max_drawdown then drawdown else st.max_drawdown
  { events := fees_events.2.2
    cumulative_fees := fees_events.2.1
    steps_in_range := fees_events.1
    max_il := max_il
    max_value := max_value
    max_drawdown := max_drawdown
    pnl_history := st.pnl_history ++ [net_pnl]
    il_history := st.il_history ++ [il_decimal]
    fee_history := st.fee_history ++ [fees_events.2.1]
    was_in_range := in_range }

/-- Embeds `position_simulator::PositionSimulationResult`. -/
structure PositionSimulationResult where
  summary : SimulationSummary
  events : List SimulationEvent
  prices : List Price
  pnl_history : List Dec
  il_history : List Dec
  fee_history : List Dec
deriving Repr

/-- Embeds `position_simulator::empty_result`. -/
def positionEmptyResult (config : SimulationConfig) : PositionSimulationResult :=
  let r := strategyEmptyResult config
  { summary := r.summary
    events := []
    prices := []
    pnl_history := []
    il_history := []
    fee_history := [] }

/-- Embeds `position_simulator::simulate_position`: the static-position
simulator (no rebalancing; the range is `config.initial_range`
throughout). -/
def simulate_position (ilFn : IlFn) (config : SimulationConfig)
    (prices : List Price) (volume_model : VolumeFn)
    (liquidity_model : LiquidityFn) : PositionSimulationResult :=
  match prices with
  | [] => positionEmptyResult config
  | entry_price :: _ =>
    let range := config.initial_range
    let st0 : PosState :=
      { events := [SimulationEvent.position_opened 0 entry_price
          config.initial_capital range]
        cumulative_fees := 0
        steps_in_range := 0
        max_il := 0
        max_value := config.initial_capital
        max_drawdown := 0
        pnl_history := []
        il_history := []
        fee_history := []
        was_in_range := is_in_range entry_price.value range }
    let st := prices.enum.foldl
      (posStep ilFn config entry_price volume_model liquidity_model) st0
    let final_price := (prices.getLast?).getD entry_price
    let final_il :=
      (ilFn entry_price.value final_price.value range.lower_price.value
        range.upper_price.value).getD 0
    let final_price_ratio :=
      if entry_price.value.num = 0 then (1 : Dec)
      else final_price.value / entry_price.value
    let il_amount := config.initial_capital * final_il.abs
    let final_value := config.initial_capital - il_amount + st.cumulative_fees
    let net_pnl := final_value - config.initial_capital
    let net_pnl_pct :=
      if config.initial_capital.num = 0 then 0 else net_pnl / config.initial_capital
    let hodl_value := config.initial_capital * final_price_ratio
    let vs_hodl := final_value - hodl_value
    let events2 := st.events ++ [SimulationEvent.position_closed prices.length
      final_price final_value st.cumulative_fees final_il net_pnl]
    { summary :=
        { config := config
          entry_price := entry_price
          final_price := final_price
          total_steps := prices.length
          steps_in_range := st.steps_in_range
          final_value := final_value
          total_fees := st.cumulative_fees
          final_il_pct := final_il
          net_pnl := net_pnl
          net_pnl_pct := net_pnl_pct
          rebalance_count := 0
          total_rebalance_cost := 0
          max_il_pct := st.max_il
          max_drawdown_pct := st.max_drawdown
          hodl_value := hodl_value
          vs_hodl := vs_hodl }
      events := events2
      prices := prices
      pnl_history := st.pnl_history
      il_history := st.il_history
      fee_history := st.fee_history }

/-- Embeds `emergency::circuit_breaker::CircuitState`. -/
inductive CircuitState where
  | Closed
  | Open
  | HalfOpen
deriving DecidableEq, Repr

/-- Embeds `CircuitBreakerConfig` (recovery timeout in seconds). -/
structure CircuitBreakerConfig where
  max_failures : ℕ
  max_loss_pct : Dec
  max_priority_fee_lamports : ℕ
  recovery_timeout_secs : ℕ
  success_threshold : ℕ
deriving Repr

/-- Embeds `CircuitBreakerConfig::default`. -/
def CircuitBreakerConfig.default : CircuitBreakerConfig :=
  { max_failures := 3
    max_loss_pct := ⟨10, 100⟩
    max_priority_fee_lamports := 100000000
    recovery_timeout_secs := 300
    success_threshold := 2 }

/-- Embeds `CircuitBreaker` (state machine with explicit `Instant`s as
natural-number seconds; each operation receives the current instant). -/
structure CircuitBreaker where
  state : CircuitState
  config : CircuitBreakerConfig
  failure_count : ℕ
  success_count : ℕ
  opened_at : Option ℕ
  manually_tripped : Bool
deriving Repr

/-- Embeds `CircuitBreaker::new`. -/
def CircuitBreaker.new (config : CircuitBreakerConfig) : CircuitBreaker :=
  { state := .Closed
    config := config
    failure_count := 0
    success_count := 0
    opened_at := none
    manually_tripped := false }

/-- Embeds the private `CircuitBreaker::trip`: transition to `Open`, stamp
`opened_at` with the current instant, reset the failure counter. -/
def CircuitBreaker.trip (cb : CircuitBreaker) (now : ℕ) : CircuitBreaker :=
  { cb with state := .Open, opened_at := some now, failure_count := 0 }

/-- Embeds `CircuitBreaker::record_failure`: bump the failure counter and
zero the success counter, then: in `Closed`, trip once the counter reaches
`max_failures`; in `HalfOpen`, trip immediately; in `Open`, do nothing
more. -/
def CircuitBreaker.record_failure (cb : CircuitBreaker) (now : ℕ) :
    CircuitBreaker :=
  let count := cb.failure_count + 1
  let cb1 := { cb with failure_count := count, success_count := 0 }
  match cb.state with
  | .Closed => if count ≥ cb.config.max_failures then cb1.trip now else cb1
  | .HalfOpen => cb1.trip now
  | .Open => cb1

/-- Embeds `CircuitBreaker::record_success`: zero the failure counter; in
`HalfOpen`, count successes and close the circuit at the threshold. -/
def CircuitBreaker.record_success (cb : CircuitBreaker) : CircuitBreaker :=
  let cb1 := { cb with failure_count := 0 }
  match cb.state with
  | .HalfOpen =>
    let count := cb1.success_count + 1
    if count ≥ cb.config.success_threshold then
      { cb1 with state := .Closed, success_count := 0 }
    else { cb1 with success_count := count }
  | _ => cb1

/-- Embeds `CircuitBreaker::is_allowed` at instant `now`: returns the
answer and the (possibly updated) breaker.  Manual trip always refuses;
`Closed` and `HalfOpen` allow; `Open` refuses until `recovery_timeout` has
elapsed since `opened_at`, then transitions to `HalfOpen` and allows. -/
def CircuitBreaker.is_allowed (cb : CircuitBreaker) (now : ℕ) :
    Bool × CircuitBreaker :=
  if cb.manually_tripped then (false, cb)
  else
    match cb.state with
    | .Closed => (true, cb)
    | .Open =>
      match cb.opened_at with
      | some opened_at =>
        if now - opened_at ≥ cb.config.recovery_timeout_secs then
          (true, { cb with state := .HalfOpen })
        else (false, cb)
      | none => (false, cb)
    | .HalfOpen => (true, cb)

/-- A sequence of `record_failure` calls at the given instants. -/
def CircuitBreaker.record_failures (cb : CircuitBreaker) (times : List ℕ) :
    CircuitBreaker :=
  times.foldl CircuitBreaker.record_failure cb

/-- Embeds `lifecycle::events::LifecycleEventType`. -/
inductive LifecycleEventType where
  | positionOpened
  | liquidityIncreased
  | liquidityDecreased
  | rebalanced
  | feesCollected
  | positionClosed
deriving DecidableEq, Repr

/-- Embeds `lifecycle::events::RebalanceReason`. -/
inductive LcRebalanceReason where
  | rangeExit
  | ilThreshold
  | periodic
  | manual
  | optimization
deriving DecidableEq, Repr

/-- Embeds `lifecycle::events::CloseReason`. -/
inductive CloseReason where
  | manual
  | ilThreshold
  | pnlTarget
  | emergency
  | strategyEnded
deriving DecidableEq, Repr

/-- Embeds `lifecycle::events::PositionOpenedData`. -/
structure PositionOpenedData where
  tick_lower : ℤ
  tick_upper : ℤ
  liquidity : ℕ
  amount_a : ℕ
  amount_b : ℕ
  entry_price : Dec
  entry_value_usd : Dec
deriving DecidableEq, Repr

/-- Embeds `lifecycle::events::LiquidityChangeData`. -/
structure LiquidityChangeData where
  is_increase : Bool
  liquidity_delta : ℕ
  amount_a : ℕ
  amount_b : ℕ
  new_liquidity : ℕ
deriving DecidableEq, Repr

/-- Embeds `lifecycle::events::RebalanceData`. -/
structure RebalanceData where
  old_tick_lower : ℤ
  old_tick_upper : ℤ
  new_tick_lower : ℤ
  new_tick_upper : ℤ
  old_liquidity : ℕ
  new_liquidity : ℕ
  tx_cost_lamports : ℕ
  il_at_rebalance : Dec
  reason : LcRebalanceReason
deriving DecidableEq, Repr

/-- Embeds `lifecycle::events::FeesCollectedData`. -/
structure FeesCollectedData where
  fees_a : ℕ
  fees_b : ℕ
  fees_usd : Dec
deriving DecidableEq, Repr

/-- Embeds `lifecycle::events::PositionClosedData`. -/
structure PositionClosedData where
  liquidity_removed : ℕ
  amount_a : ℕ
  amount_b : ℕ
  total_fees_a : ℕ
  total_fees_b : ℕ
  final_pnl_usd : Dec
  final_pnl_pct : Dec
  total_il_pct : Dec
  duration_hours : ℕ
  reason : CloseReason
deriving DecidableEq, Repr

/-- Embeds `lifecycle::events::EventData`. -/
inductive LcEventData where
  | positionOpened (data : PositionOpenedData)
  | liquidityChange (data : LiquidityChangeData)
  | rebalance (data : RebalanceData)
  | feesCollected (data : FeesCollectedData)
  | positionClosed (data : PositionClosedData)
deriving DecidableEq, Repr

/-- Embeds `lifecycle::events::LifecycleEvent`.  `LifecycleEvent::new`
stamps a fresh UUID and `Utc::now()`; the instant is made an explicit
parameter of every recording operation, and the UUID — unused by any
derived statistic — is modelled as the empty string. -/
structure LifecycleEvent where
  id : String
  event_type : LifecycleEventType
  position : ℕ
  pool : ℕ
  signature : Option ℕ
  timestamp : ℕ
  data : LcEventData
deriving DecidableEq, Repr

/-- Embeds `LifecycleEvent::new` (with the ambient clock explicit). -/
def LifecycleEvent.new (event_type : LifecycleEventType) (position pool : ℕ)
    (data : LcEventData) (now : ℕ) : LifecycleEvent :=
  { id := ""
    event_type := event_type
    position := position
    pool := pool
    signature := none
    timestamp := now
    data := data }

/-- Embeds `lifecycle::tracker::PositionSummary`. -/
structure PositionSummary where
  position : ℕ
  pool : ℕ
  opened_at : ℕ
  closed_at : Option ℕ
  entry_value_usd : Dec
  current_value_usd : Dec
  total_fees_usd : Dec
  rebalance_count : ℕ
  total_tx_costs_lamports : ℕ
  total_il_pct : Dec
  net_pnl_usd : Dec
  net_pnl_pct : Dec
  is_open : Bool
deriving DecidableEq, Repr

/-- Embeds `lifecycle::tracker::LifecycleTracker`: per-position event lists
and derived summaries (the two `HashMap`s, as total maps into lists /
optional summaries). -/
structure LifecycleTracker where
  events : ℕ → List LifecycleEvent
  summaries : ℕ → Option PositionSummary

/-- Embeds `LifecycleTracker::new`. -/
def LifecycleTracker.new : LifecycleTracker :=
  { events := fun _ => [], summaries := fun _ => none }

/-- Embeds the private `LifecycleTracker::add_event`: append to the
position's event list. -/
def LifecycleTracker.add_event (tr : LifecycleTracker) (position : ℕ)
    (event : LifecycleEvent) : LifecycleTracker :=
  { tr with events := fun q => if q = position then tr.events q ++ [event] else tr.events q }

/-- Embeds `LifecycleTracker::record_position_opened`: append the event and
insert a fresh summary for the position. -/
def LifecycleTracker.record_position_opened (tr : LifecycleTracker)
    (position pool : ℕ) (data : PositionOpenedData) (now : ℕ) :
    LifecycleTracker :=
  let event := LifecycleEvent.new .positionOpened position pool
    (.positionOpened data) now
  let tr1 := tr.add_event position event
  let summary : PositionSummary :=
    { position := position
      pool := pool
      opened_at := event.timestamp
      closed_at := none
      entry_value_usd := data.entry_value_usd
      current_value_usd := data.entry_value_usd
      total_fees_usd := 0
      rebalance_count := 0
      total_tx_costs_lamports := 0
      total_il_pct := 0
      net_pnl_usd := 0
      net_pnl_pct := 0
      is_open := true }
  { tr1 with summaries := fun q => if q = position then some summary else tr1.summaries q }

/-- Embeds `LifecycleTracker::record_liquidity_change`: append the event
(increase or decrease); the summary is not touched. -/
def LifecycleTracker.record_liquidity_change (tr : LifecycleTracker)
    (position pool : ℕ) (data : LiquidityChangeData) (now : ℕ) :
    LifecycleTracker :=
  let event_type := if data.is_increase then LifecycleEventType.liquidityIncreased
    else LifecycleEventType.liquidityDecreased
  tr.add_event position (LifecycleEvent.new event_type position pool
    (.liquidityChange data) now)

/-- Embeds `LifecycleTracker::record_rebalance`: append the event; if a
summary exists for the position, bump its rebalance count and add the
transaction cost. -/
def LifecycleTracker.record_rebalance (tr : LifecycleTracker)
    (position pool : ℕ) (data : RebalanceData) (now : ℕ) : LifecycleTracker :=
  let tr1 := tr.add_event position (LifecycleEvent.new .rebalanced position pool
    (.rebalance data) now)
  { tr1 with summaries := fun q =>
      if q = position then
        match tr1.summaries position with
        | some s => some { s with
            rebalance_count := s.rebalance_count + 1
            total_tx_costs_lamports := s.total_tx_costs_lamports + data.tx_cost_lamports }
        | none => tr1.summaries q
      else tr1.summaries q }

/-- Embeds `LifecycleTracker::record_fees_collected`: append the event; if
a summary exists, add the USD fee value. -/
def LifecycleTracker.record_fees_collected (tr : LifecycleTracker)
    (position pool : ℕ) (data : FeesCollectedData) (now : ℕ) : LifecycleTracker :=
  let tr1 := tr.add_event position (LifecycleEvent.new .feesCollected position pool
    (.feesCollected data) now)
  { tr1 with summaries := fun q =>
      if q = position then
        match tr1.summaries position with
        | some s => some { s with total_fees_usd := s.total_fees_usd + data.fees_usd }
        | none => tr1.summaries q
      else tr1.summaries q }

/-- Embeds `LifecycleTracker::record_position_closed`: append the event; if
a summary exists, stamp `closed_at`, clear `is_open`, and copy the final
PnL and IL figures. -/
def LifecycleTracker.record_position_closed (tr : LifecycleTracker)
    (position pool : ℕ) (data : PositionClosedData) (now : ℕ) : LifecycleTracker :=
  let event := LifecycleEvent.new .positionClosed position pool
    (.positionClosed data) now
  let tr1 := tr.add_event position event
  { tr1 with summaries := fun q =>
      if q = position then
        match tr1.summaries position with
        | some s => some { s with
            closed_at := some event.timestamp
            is_open := false
            net_pnl_usd := data.final_pnl_usd
            net_pnl_pct := data.final_pnl_pct
            total_il_pct := data.total_il_pct }
        | none => tr1.summaries q
      else tr1.summaries q }

/-- Embeds `LifecycleTracker::get_summary`. -/
def LifecycleTracker.get_summary (tr : LifecycleTracker) (position : ℕ) :
    Option PositionSummary :=
  tr.summaries position

/-- Embeds `LifecycleTracker::get_events`. -/
def LifecycleTracker.get_events (tr : LifecycleTracker) (position : ℕ) :
    List LifecycleEvent :=
  tr.events position

/-- One recording operation on the lifecycle tracker, for reasoning about
arbitrary interleavings of the public recording API. -/
inductive TrackerOp where
  | openPos (position pool : ℕ) (data : PositionOpenedData) (now : ℕ)
  | liqChange (position pool : ℕ) (data : LiquidityChangeData) (now : ℕ)
  | rebal (position pool : ℕ) (data : RebalanceData) (now : ℕ)
  | fees (position pool : ℕ) (data : FeesCollectedData) (now : ℕ)
  | closePos (position pool : ℕ) (data : PositionClosedData) (now : ℕ)

/-- Applies one recording operation. -/
def TrackerOp.apply (tr : LifecycleTracker) : TrackerOp → LifecycleTracker
  | .openPos position pool data now => tr.record_position_opened position pool data now
  | .liqChange position pool data now => tr.record_liquidity_change position pool data now
  | .rebal position pool data now => tr.record_rebalance position pool data now
  | .fees position pool data now => tr.record_fees_collected position pool data now
  | .closePos position pool data now => tr.record_position_closed position pool data now

/-- Whether the operation is `record_position_opened` on position `p`. -/
def TrackerOp.opens (op : TrackerOp) (p : ℕ) : Bool :=
  match op with
  | .openPos position _ _ _ => position == p
  | _ => false

/-- Embeds `transaction::PriorityLevel`. -/
inductive PriorityLevel where
  | low
  | medium
  | high
deriving DecidableEq, Repr

/-- Embeds `strategy::rebalance::RebalanceConfig`. -/
structure RebalanceConfig where
  max_slippage_bps : ℕ
  min_profit_multiplier : Dec
  collect_fees_first : Bool
  priority_level : PriorityLevel
deriving Repr

/-- Embeds `RebalanceConfig::default` (`0.5%` slippage, `2×` transaction
cost, collect fees first, medium priority). -/
def RebalanceConfig.default : RebalanceConfig :=
  { max_slippage_bps := 50
    min_profit_multiplier := 2
    collect_fees_first := true
    priority_level := .medium }

/-- Embeds `strategy::rebalance::RebalanceParams`. -/
structure RebalanceParams where
  position : ℕ
  pool : ℕ
  current_tick_lower : ℤ
  current_tick_upper : ℤ
  new_tick_lower : ℤ
  new_tick_upper : ℤ
  current_liquidity : ℕ
  reason : LcRebalanceReason
  current_il_pct : Dec
deriving Repr

/-- Embeds `strategy::rebalance::RebalanceResult`. -/
structure RebalanceResult where
  success : Bool
  old_position : ℕ
  new_position : Option ℕ
  fees_collected : Option (ℕ × ℕ)
  liquidity_removed : ℕ
  liquidity_added : ℕ
  tx_cost_lamports : ℕ
  error : Option String
deriving DecidableEq, Repr

/-- Embeds `strategy::rebalance::ProfitabilityCheck`. -/
structure ProfitabilityCheck where
  is_profitable : Bool
  estimated_tx_cost : ℕ
  expected_benefit : Dec
  min_required_benefit : Dec
deriving Repr

/-- Embeds the private `RebalanceExecutor::estimate_tx_cost`: the fixed
estimate of `0.01` SOL in lamports. -/
def estimate_tx_cost : ℕ := 10000000

/-- Embeds the private `RebalanceExecutor::estimate_benefit`:
`|current_il| * 0.5 * 1000`. -/
def estimate_benefit (params : RebalanceParams) : Dec :=
  params.current_il_pct.abs * (⟨5, 10⟩ : Dec) * 1000

/-- Embeds `RebalanceExecutor::is_profitable`: profitable when the expected
benefit strictly exceeds `estimated_tx_cost * min_profit_multiplier`. -/
def RebalanceExecutor.is_profitable (config : RebalanceConfig)
    (params : RebalanceParams) : ProfitabilityCheck :=
  let estimated_tx_cost := estimate_tx_cost
  let expected_benefit := estimate_benefit params
  { is_profitable :=
      decide (expected_benefit > Dec.ofN estimated_tx_cost * config.min_profit_multiplier)
    estimated_tx_cost := estimated_tx_cost
    expected_benefit := expected_benefit
    min_required_benefit := Dec.ofN estimated_tx_cost * config.min_profit_multiplier }

/-- The post-profitability phases of the executor's five-phase sequence
(the profitability check itself is the first phase). -/
inductive RebalPhase where
  | collectFees
  | decreaseLiquidity
  | closePosition
  | openPosition
  | increaseLiquidity
deriving DecidableEq, Repr

/-- Embeds the private `RebalanceExecutor::collect_fees` (source stub:
always `Ok((0, 0))`). -/
def RebalanceExecutor.collect_fees (_position : ℕ) : Except String (ℕ × ℕ) :=
  .ok (0, 0)

/-- Embeds the private `RebalanceExecutor::decrease_liquidity` (source
stub: echoes the requested liquidity). -/
def RebalanceExecutor.decrease_liquidity (_position : ℕ) (liquidity : ℕ) :
    Except String ℕ :=
  .ok liquidity

/-- Embeds the private `RebalanceExecutor::close_position` (source stub). -/
def RebalanceExecutor.close_position (_position : ℕ) : Except String Unit :=
  .ok ()

/-- Embeds the private `RebalanceExecutor::open_position` (source stub:
returns `Pubkey::new_unique()`, an ambient fresh key made an explicit
parameter). -/
def RebalanceExecutor.open_position (_pool : ℕ) (_tick_lower _tick_upper : ℤ)
    (new_position_key : ℕ) : Except String ℕ :=
  .ok new_position_key

/-- Embeds the private `RebalanceExecutor::increase_liquidity` (source
stub: echoes the requested liquidity). -/
def RebalanceExecutor.increase_liquidity (_position : ℕ) (liquidity : ℕ) :
    Except String ℕ :=
  .ok liquidity

/-- Embeds `RebalanceExecutor::execute`: profitability gate, dry-run
short-circuit, then non-fatal fee collection followed by the fatal
decrease/close/open/increase phases, recording to the lifecycle tracker.
Returns the result, the list of post-check phases that were attempted, and
the updated tracker. -/
def RebalanceExecutor.execute (config : RebalanceConfig) (dry_run : Bool)
    (lifecycle : LifecycleTracker) (now : ℕ) (new_position_key : ℕ)
    (params : RebalanceParams) :
    RebalanceResult × List RebalPhase × LifecycleTracker :=
  let result0 : RebalanceResult :=
    { success := false
      old_position := params.position
      new_position := none
      fees_collected := none
      liquidity_removed := 0
      liquidity_added := 0
      tx_cost_lamports := 0
      error := none }
  let profitability := RebalanceExecutor.is_profitable config params
  if !profitability.is_profitable then
    ({ result0 with error := some "Rebalance not profitable" }, [], lifecycle)
  else if dry_run then
    ({ result0 with
        success := true
        liquidity_removed := params.current_liquidity
        liquidity_added := params.current_liquidity }, [], lifecycle)
  else
    let step1 :=
      if config.collect_fees_first then
        match RebalanceExecutor.collect_fees params.position with
        | .ok fees =>
          ({ result0 with
              fees_collected := some fees
              tx_cost_lamports := result0.tx_cost_lamports + 5000 },
            [RebalPhase.collectFees],
            lifecycle.record_fees_collected params.position params.pool
              ⟨fees.1, fees.2, 0⟩ now)
        | .error _ => (result0, [RebalPhase.collectFees], lifecycle)
      else (result0, ([] : List RebalPhase), lifecycle)
    let r1 := step1.1
    let ph1 := step1.2.1
    let lc1 := step1.2.2
    match RebalanceExecutor.decrease_liquidity params.position params.current_liquidity with
    | .error e => ({ r1 with error := some e }, ph1 ++ [.decreaseLiquidity], lc1)
    | .ok liquidity =>
      let r2 := { r1 with
        liquidity_removed := liquidity
        tx_cost_lamports := r1.tx_cost_lamports + 5000 }
      match RebalanceExecutor.close_position params.position with
      | .error e =>
        ({ r2 with error := some e }, ph1 ++ [.decreaseLiquidity, .closePosition], lc1)
      | .ok _ =>
        let r3 := { r2 with tx_cost_lamports := r2.tx_cost_lamports + 5000 }
        match RebalanceExecutor.open_position params.pool params.new_tick_lower
          params.new_tick_upper new_position_key with
        | .error e =>
          ({ r3 with error := some e },
            ph1 ++ [.decreaseLiquidity, .closePosition, .openPosition], lc1)
        | .ok new_position =>
          let r4 := { r3 with
            new_position := some new_position
            tx_cost_lamports := r3.tx_cost_lamports + 5000 }
          match RebalanceExecutor.increase_liquidity new_position
            params.current_liquidity with
          | .error e =>
            ({ r4 with error := some e },
              ph1 ++ [.decreaseLiquidity, .closePosition, .openPosition,
                .increaseLiquidity], lc1)
          | .ok liquidity_added =>
            let r5 := { r4 with
              liquidity_added := liquidity_added
              tx_cost_lamports := r4.tx_cost_lamports + 5000 }
            let lc2 := lc1.record_rebalance new_position params.pool
              ⟨params.current_tick_lower, params.current_tick_upper,
                params.new_tick_lower, params.new_tick_upper,
                params.current_liquidity, r5.liquidity_added,
                r5.tx_cost_lamports, params.current_il_pct, params.reason⟩ now
            ({ r5 with success := true },
              ph1 ++ [.decreaseLiquidity, .closePosition, .openPosition,
                .increaseLiquidity], lc2)

/-- Embeds `price_path::GeometricBrownianMotion`: the four constructor
parameters (initial price, annualized drift and volatility, time step);
there is no seed field. -/
structure GeometricBrownianMotion where
  initial_price : Dec
  drift : Dec
  volatility : Dec
  time_step : Dec
deriving Repr

/-- Embeds `GeometricBrownianMotion::new(initial_price, drift, volatility,
time_step)` — the constructor's full parameter list; it accepts no seed. -/
def GeometricBrownianMotion.new (initial_price drift volatility time_step : Dec) :
    GeometricBrownianMotion :=
  { initial_price := initial_price
    drift := drift
    volatility := volatility
    time_step := time_step }

/-- Embeds `GeometricBrownianMotion::generate`: starting from the initial
price, multiply step by step by `exp(drift_term + vol_term * z_k)` where
`z_k` is drawn from `rand::thread_rng()` — an ambient source of randomness
not derived from any constructor argument, modelled as the explicit stream
`changes` of multiplicative factors.  Produces `steps + 1` prices. -/
def GeometricBrownianMotion.generate (gbm : GeometricBrownianMotion)
    (steps : ℕ) (changes : ℕ → Dec) : List Price :=
  ((List.range steps).foldl
    (fun acc k =>
      let p := acc.2 * changes k
      (acc.1 ++ [Price.new p], p))
    ([Price.new gbm.initial_price], gbm.initial_price)).1

/-- Embeds `price_path::DeterministicPricePath`: `generate` returns the
stored sequence verbatim. -/
def DeterministicPricePath.generate (prices : List Price) (_steps : ℕ) :
    List Price :=
  prices

/-- Fee figure recorded in a `PositionClosed` simulation event. -/
def SimEventData.closedFees : SimEventData → Option Dec
  | .positionClosed _ total_fees _ _ => Option.some total_fees
  | _ => Option.none

/-- Scenario S3 configuration: capital `1000`, initial range `[90, 110]`,
20 steps, fee rate `0.003`, rebalance cost `1` (as in the repository's
periodic-strategy test). -/
def s3Config : SimulationConfig :=
  (((SimulationConfig.new 1000
    (PriceRange.new (Price.new 90) (Price.new 110))).with_steps 20).with_fee_rate
    ⟨3, 1000⟩).with_rebalance_cost 1

/-- Scenario S3 run: 20 steps at constant price `100` under
`Periodic(interval = 5, width_pct = 0.10)`, constant volume `10000` and
constant pool liquidity `1_000_000`, with the concrete IL routine (at a
constant price equal to the entry price the IL is exactly `0` whatever the
square roots evaluate to, so the oracle choice is immaterial here). -/
def s3Run : StrategySimulationResult :=
  simulate_with_strategy ilConcentratedDec s3Config
    (List.replicate 20 (Price.new 100))
    (ConstantVolume 10000) (ConstantLiquidity 1000000)
    (PeriodicRebalance.new 5 ⟨1, 10⟩).evaluate

/-- The steps at which scenario S3 recorded `Rebalance` events. -/
def s3RebalanceSteps : List ℕ :=
  (s3Run.events.filter
    (fun e => e.event_type == SimulationEventType.rebalance)).map
    (fun e => e.step)

/-- A strategy that closes the position at once — a legal input to the
generic simulator (any `RebalanceStrategy` implementation may be passed),
used to exercise the `Close` arm. -/
def closeAlways : Strategy := fun _ => RebalanceAction.close RebalanceReason.manual

/-- Configuration for the close-semantics run: capital `1000`, range
`[81, 121]` (perfect-square bounds, so the `f64` square roots are exact),
and the `SimulationConfig::new` defaults otherwise. -/
def c3Config : SimulationConfig :=
  (SimulationConfig.new 1000
    (PriceRange.new (Price.new 81) (Price.new 121))).with_steps 2

/-- Close-semantics run: prices `[100, 144]` with a strategy that closes
at step 0; all square roots taken along this run are of perfect squares,
where `decSqrt` coincides with the source's `f64` square root. -/
def c3Run : StrategySimulationResult :=
  simulate_with_strategy ilConcentratedDec c3Config
    [Price.new 100, Price.new 144]
    (ConstantVolume 10000) (ConstantLiquidity 1000000) closeAlways

/-- Parameters sitting exactly at the profitability boundary:
`|−40000| * 0.5 * 1000 = 20_000_000 = estimated_tx_cost * 2`. -/
def c7Params : RebalanceParams :=
  { position := 1
    pool := 2
    current_tick_lower := -100
    current_tick_upper := 100
    new_tick_lower := -50
    new_tick_upper := 50
    current_liquidity := 500
    reason := .periodic
    current_il_pct := ⟨-40000, 1⟩ }

/-- Sample opened-position payload for tracker scenarios. -/
def sampleOpenData : PositionOpenedData :=
  { tick_lower := -1000
    tick_upper := 1000
    liquidity := 1000000
    amount_a := 1000000000
    amount_b := 100000000
    entry_price := 100
    entry_value_usd := 1000 }

/-- Sample rebalance payload for tracker scenarios. -/
def sampleRebalanceData : RebalanceData :=
  { old_tick_lower := -1000
    old_tick_upper := 1000
    new_tick_lower := -500
    new_tick_upper := 500
    old_liquidity := 1000000
    new_liquidity := 900000
    tx_cost_lamports := 25000
    il_at_rebalance := ⟨-2, 100⟩
    reason := .periodic }

/-- Sample fees payload for tracker scenarios. -/
def sampleFeesData : FeesCollectedData :=
  { fees_a := 5000, fees_b := 700, fees_usd := ⟨25, 2⟩ }

/-- Sample close payload for tracker scenarios. -/
def sampleCloseData : PositionClosedData :=
  { liquidity_removed := 900000
    amount_a := 100
    amount_b := 200
    total_fees_a := 5000
    total_fees_b := 700
    final_pnl_usd := 50
    final_pnl_pct := ⟨5, 100⟩
    total_il_pct := ⟨-1, 100⟩
    duration_hours := 48
    reason := .manual }

/-- Scenario S5 breaker configuration: `max_failures = 2`,
`recovery_timeout = 300 s` (other fields at their defaults). -/
def s5Config : CircuitBreakerConfig :=
  { CircuitBreakerConfig.default with max_failures := 2, recovery_timeout_secs := 300 }

namespace Dec

theorem wf_ofNat (n : ℕ) : WF (OfNat.ofNat n : Dec) := one_ne_zero

theorem wf_ofN (n : ℕ) : WF (ofN n) := one_ne_zero

theorem wf_norm (a : Dec) (h : WF a) : WF a.norm := by
  unfold norm WF at *
  set g := a.num.natAbs.gcd a.den with hg
  have hgd : g ∣ a.den := Nat.gcd_dvd_right _ _
  have hgne : g ≠ 0 := fun h0 => h (Nat.eq_zero_of_gcd_eq_zero_right (hg ▸ h0))
  have hd : a.den / g ≠ 0 := by
    obtain ⟨d, hd⟩ := hgd
    rw [hd, Nat.mul_div_cancel_left _ (Nat.pos_of_ne_zero hgne)]
    intro h0
    exact h (by rw [hd, h0, Nat.mul_zero])
  simp only [hgne, if_false]
  rcases lt_or_ge a.num 0 with hneg | hpos
  · simpa only [if_pos hneg] using hd
  · simpa only [if_neg (not_lt.mpr hpos)] using hd

theorem toRat_norm (a : Dec) (h : WF a) : a.norm.toRat = a.toRat := by
  unfold norm
  set g := a.num.natAbs.gcd a.den with hg
  have hgn : g ∣ a.num.natAbs := Nat.gcd_dvd_left _ _
  have hgd : g ∣ a.den := Nat.gcd_dvd_right _ _
  have hgne : g ≠ 0 := fun h0 => h (Nat.eq_zero_of_gcd_eq_zero_right (hg ▸ h0))
  have hgq : (g : ℚ) ≠ 0 := Nat.cast_ne_zero.mpr hgne
  have key : ((a.num.natAbs / g : ℕ) : ℚ) / ((a.den / g : ℕ) : ℚ)
      = ((a.num.natAbs : ℕ) : ℚ) / ((a.den : ℕ) : ℚ) := by
    obtain ⟨m, hm⟩ := hgn
    obtain ⟨d, hd⟩ := hgd
    rw [hm, hd, Nat.mul_div_cancel_left _ (Nat.pos_of_ne_zero hgne),
      Nat.mul_div_cancel_left _ (Nat.pos_of_ne_zero hgne)]
    push_cast
    rw [mul_div_mul_left _ _ hgq]
  simp only [hgne, if_false]
  rcases lt_or_ge a.num 0 with hneg | hpos
  · have h1 : ((a.num.natAbs : ℕ) : ℤ) = -a.num :=
      Int.ofNat_natAbs_of_nonpos (le_of_lt hneg)
    have habs : ((a.num.natAbs : ℕ) : ℚ) = -((a.num : ℤ) : ℚ) := by
      rw [← Int.cast_natCast (R := ℚ), h1, Int.cast_neg]
    simp only [if_pos hneg, toRat]
    rw [Int.cast_neg, Int.cast_natCast, neg_div, key, habs, neg_div, neg_neg]
  · have h1 : ((a.num.natAbs : ℕ) : ℤ) = a.num := Int.natAbs_of_nonneg hpos
    have habs : ((a.num.natAbs : ℕ) : ℚ) = ((a.num : ℤ) : ℚ) := by
      rw [← Int.cast_natCast (R := ℚ), h1]
    simp only [if_neg (not_lt.mpr hpos), toRat]
    rw [Int.cast_natCast, key, habs]

theorem wf_add {a b : Dec} (ha : WF a) (hb : WF b) : WF (a + b) :=
  wf_norm _ (Nat.mul_ne_zero ha hb)

theorem wf_neg {a : Dec} (ha : WF a) : WF (-a) := ha

theorem wf_sub {a b : Dec} (ha : WF a) (hb : WF b) : WF (a - b) :=
  wf_add ha hb

theorem wf_mul {a b : Dec} (ha : WF a) (hb : WF b) : WF (a * b) :=
  wf_norm _ (Nat.mul_ne_zero ha hb)

theorem wf_mk {n : ℤ} {d : ℕ} (hd : d ≠ 0) : WF ⟨n, d⟩ := hd

theorem wf_inv (a : Dec) : WF a.inv := by
  by_cases h : a.num < 0
  · simpa [inv, h, WF] using Int.natAbs_ne_zero.mpr (ne_of_lt h)
  · by_cases h0 : a.num = 0
    · simp [inv, h, h0, WF]
    · simp only [inv, h, h0, if_false, WF]
      exact Int.natAbs_ne_zero.mpr h0

theorem wf_div {a : Dec} (ha : WF a) (b : Dec) : WF (a / b) :=
  wf_mul ha (wf_inv b)

theorem wf_abs {a : Dec} (ha : WF a) : WF a.abs := by
  unfold abs
  split <;> exact ha

theorem toRat_mk (n : ℤ) (d : ℕ) : toRat ⟨n, d⟩ = (n : ℚ) / (d : ℚ) := rfl

theorem denQ_pos {a : Dec} (ha : WF a) : (0 : ℚ) < (a.den : ℚ) := by
  exact_mod_cast Nat.pos_of_ne_zero ha

theorem toRat_add {a b : Dec} (ha : WF a) (hb : WF b) :
    (a + b).toRat = a.toRat + b.toRat := by
  show (add a b).toRat = a.toRat + b.toRat
  unfold add
  rw [toRat_norm _ (wf_mk (Nat.mul_ne_zero ha hb)), toRat_mk, toRat]
  have haq : (a.den : ℚ) ≠ 0 := ne_of_gt (denQ_pos ha)
  have hbq : (b.den : ℚ) ≠ 0 := ne_of_gt (denQ_pos hb)
  push_cast
  rw [toRat]
  field_simp

theorem toRat_neg (a : Dec) : (-a).toRat = -a.toRat := by
  show (neg a).toRat = -a.toRat
  unfold neg toRat
  push_cast
  rw [neg_div]

theorem toRat_sub {a b : Dec} (ha : WF a) (hb : WF b) :
    (a - b).toRat = a.toRat - b.toRat := by
  show (add a (neg b)).toRat = a.toRat - b.toRat
  rw [show add a (neg b) = a + (-b) from rfl, toRat_add ha (wf_neg hb), toRat_neg]
  ring

theorem toRat_mul {a b : Dec} (ha : WF a) (hb : WF b) :
    (a * b).toRat = a.toRat * b.toRat := by
  show (mul a b).toRat = a.toRat * b.toRat
  unfold mul
  rw [toRat_norm _ (wf_mk (Nat.mul_ne_zero ha hb)), toRat_mk, toRat, toRat]
  push_cast
  rw [div_mul_div_comm]

theorem toRat_inv (a : Dec) : a.inv.toRat = a.toRat⁻¹ := by
  unfold inv
  rcases lt_trichotomy a.num 0 with h | h | h
  · have h1 : ((a.num.natAbs : ℕ) : ℤ) = -a.num :=
      Int.ofNat_natAbs_of_nonpos (le_of_lt h)
    have habs : ((a.num.natAbs : ℕ) : ℚ) = -((a.num : ℤ) : ℚ) := by
      rw [← Int.cast_natCast (R := ℚ), h1, Int.cast_neg]
    simp only [if_pos h, toRat_mk, toRat]
    rw [habs, Int.cast_neg, Int.cast_natCast, ← inv_div]
    rw [div_neg, neg_div, neg_neg]
  · simp [h, toRat_mk, toRat]
  · have h1 : ((a.num.natAbs : ℕ) : ℤ) = a.num := Int.natAbs_of_nonneg (le_of_lt h)
    have habs : ((a.num.natAbs : ℕ) : ℚ) = ((a.num : ℤ) : ℚ) := by
      rw [← Int.cast_natCast (R := ℚ), h1]
    simp only [if_neg (not_lt.mpr (le_of_lt h)), if_neg (ne_of_gt h), toRat_mk, toRat]
    rw [habs, Int.cast_natCast, ← inv_div]

theorem toRat_div {a : Dec} (ha : WF a) (b : Dec) :
    (a / b).toRat = a.toRat / b.toRat := by
  show (mul a b.inv).toRat = a.toRat / b.toRat
  rw [show mul a b.inv = a * b.inv from rfl, toRat_mul ha (wf_inv b), toRat_inv,
    div_eq_mul_inv]

theorem toRat_abs {a : Dec} (ha : WF a) : a.abs.toRat = |a.toRat| := by
  unfold abs
  rcases lt_or_ge a.num 0 with h | h
  · have hlt : a.toRat < 0 := by
      rw [toRat]
      apply div_neg_of_neg_of_pos _ (denQ_pos ha)
      exact_mod_cast h
    rw [if_pos h, show a.neg = -a from rfl, toRat_neg, abs_of_neg hlt]
  · have hge : 0 ≤ a.toRat := by
      rw [toRat]
      apply div_nonneg _ (le_of_lt (denQ_pos ha))
      exact_mod_cast h
    rw [if_neg (not_lt.mpr h), abs_of_nonneg hge]

theorem lt_iff_toRat {a b : Dec} (ha : WF a) (hb : WF b) :
    a < b ↔ a.toRat < b.toRat := by
  show lt a b ↔ a.toRat < b.toRat
  unfold lt toRat
  rw [div_lt_div_iff₀ (denQ_pos ha) (denQ_pos hb)]
  constructor <;> intro h <;> exact_mod_cast h

theorem le_iff_toRat {a b : Dec} (ha : WF a) (hb : WF b) :
    a ≤ b ↔ a.toRat ≤ b.toRat := by
  show le a b ↔ a.toRat ≤ b.toRat
  unfold le toRat
  rw [div_le_div_iff₀ (denQ_pos ha) (denQ_pos hb)]
  constructor <;> intro h <;> exact_mod_cast h

theorem toRat_ofNat (n : ℕ) : (OfNat.ofNat n : Dec).toRat = (n : ℚ) := by
  show toRat ⟨(n : ℤ), 1⟩ = (n : ℚ)
  rw [toRat_mk]
  simp

theorem toRat_ofN (n : ℕ) : (ofN n).toRat = (n : ℚ) := by
  rw [ofN, toRat_mk]
  simp

theorem toRat_norm_any (a : Dec) : a.norm.toRat = a.toRat := by
  by_cases h : a.den = 0
  · by_cases hn : a.num = 0
    · simp [norm, hn, h, toRat]
    · have hgne : a.num.natAbs ≠ 0 := Int.natAbs_ne_zero.mpr hn
      have hdd : a.num.natAbs / a.num.natAbs = 1 :=
        Nat.div_self (Nat.pos_of_ne_zero hgne)
      unfold norm
      simp only [h, Nat.gcd_zero_right, hgne, if_false, Nat.zero_div, hdd]
      rcases lt_or_ge a.num 0 with hneg | hpos
      · simp [if_pos hneg, toRat, h]
      · simp [if_neg (not_lt.mpr hpos), toRat, h]
  · exact toRat_norm a h

theorem toRat_sub_zero (x : Dec) : (x - (0 : Dec)).toRat = x.toRat := by
  show (add x (neg ⟨(0 : ℤ), 1⟩)).toRat = x.toRat
  unfold add neg
  rw [toRat_norm_any, toRat_mk, toRat]
  norm_num

end Dec

set_option maxHeartbeats 1000000 in
/-- C1: on every non-empty price sequence, both simulators produce a
summary satisfying
`final_value = initial_capital − initial_capital·|final_il_pct| +
total_fees − total_rebalance_cost` exactly, and
`net_pnl = final_value − initial_capital`.  (For `simulate_position` the
first equation is stated under the exact-rational interpretation `toRat`:
its `total_rebalance_cost` is the constant zero, and subtracting the zero
fraction is a no-op of the value, not of the normalized representation.) -/
theorem C1_simulator_conservation (ilFn : IlFn) (config : SimulationConfig)
    (prices : List Price) (volume_model : VolumeFn)
    (liquidity_model : LiquidityFn) (strategy : Strategy)
    (h : prices ≠ []) :
    ((simulate_with_strategy ilFn config prices volume_model liquidity_model
        strategy).summary.final_value
      = config.initial_capital
        - config.initial_capital
          * (simulate_with_strategy ilFn config prices volume_model
              liquidity_model strategy).summary.final_il_pct.abs
        + (simulate_with_strategy ilFn config prices volume_model
            liquidity_model strategy).summary.total_fees
        - (simulate_with_strategy ilFn config prices volume_model
            liquidity_model strategy).summary.total_rebalance_cost
    ∧ (simulate_with_strategy ilFn config prices volume_model liquidity_model
        strategy).summary.net_pnl
      = (simulate_with_strategy ilFn config prices volume_model liquidity_model
          strategy).summary.final_value - config.initial_capital)
    ∧ ((simulate_position ilFn config prices volume_model
        liquidity_model).summary.final_value.toRat
      = (config.initial_capital
        - config.initial_capital
          * (simulate_position ilFn config prices volume_model
              liquidity_model).summary.final_il_pct.abs
        + (simulate_position ilFn config prices volume_model
            liquidity_model).summary.total_fees
        - (simulate_position ilFn config prices volume_model
            liquidity_model).summary.total_rebalance_cost).toRat
    ∧ (simulate_position ilFn config prices volume_model
        liquidity_model).summary.net_pnl
      = (simulate_position ilFn config prices volume_model
          liquidity_model).summary.final_value - config.initial_capital) := by
  rcases prices with _ | ⟨entry, rest⟩
  · exact absurd rfl h
  · exact ⟨⟨rfl, rfl⟩, (Dec.toRat_sub_zero _).symm, rfl⟩

/-- C1 witness: the conservation law applied to a one-step flat run. -/
theorem C1_simulator_conservation_witness :
    ([Price.new 100] : List Price) ≠ []
    ∧ (simulate_with_strategy ilConcentratedDec s3Config [Price.new 100]
        (ConstantVolume 10000) (ConstantLiquidity 1000000)
        StaticRange.evaluate).summary.final_value
      = s3Config.initial_capital
        - s3Config.initial_capital
          * (simulate_with_strategy ilConcentratedDec s3Config [Price.new 100]
              (ConstantVolume 10000) (ConstantLiquidity 1000000)
              StaticRange.evaluate).summary.final_il_pct.abs
        + (simulate_with_strategy ilConcentratedDec s3Config [Price.new 100]
            (ConstantVolume 10000) (ConstantLiquidity 1000000)
            StaticRange.evaluate).summary.total_fees
        - (simulate_with_strategy ilConcentratedDec s3Config [Price.new 100]
            (ConstantVolume 10000) (ConstantLiquidity 1000000)
            StaticRange.evaluate).summary.total_rebalance_cost :=
  ⟨by decide,
    (C1_simulator_conservation ilConcentratedDec s3Config [Price.new 100]
      (ConstantVolume 10000) (ConstantLiquidity 1000000)
      StaticRange.evaluate (by decide)).1.1⟩

/-- C8 counterexample: `PriceRange::new` performs no validation — it
happily constructs a range with `lower = 5 > 3 = upper` and one with a
non-positive lower bound, so construction establishes no invariant. -/
theorem C8_no_validation_counterexample :
    (PriceRange.new (Price.new 5) (Price.new 3)).upper_price.value
      < (PriceRange.new (Price.new 5) (Price.new 3)).lower_price.value
    ∧ ¬ ((0 : Dec) < (PriceRange.new (Price.new 5) (Price.new 3)).lower_price.value
        ∧ (PriceRange.new (Price.new 5) (Price.new 3)).lower_price.value
          < (PriceRange.new (Price.new 5) (Price.new 3)).upper_price.value)
    ∧ (PriceRange.new (Price.new ⟨-1, 1⟩) (Price.new 2)).lower_price.value
      ≤ (0 : Dec) := by
  refine ⟨by decide, ?_, by decide⟩
  intro hcontra
  exact absurd hcontra (by decide)

/-- C8 (amended): `PriceRange::new` stores the two bounds exactly as given
(no rejection of non-positive or mis-ordered bounds, so `0 < lower < upper`
is not established by construction), and `contains(p)` holds exactly when
`lower ≤ p ≤ upper`. -/
theorem C8_price_range_contains (lower upper p : Price) :
    (PriceRange.new lower upper).lower_price = lower
    ∧ (PriceRange.new lower upper).upper_price = upper
    ∧ ((PriceRange.new lower upper).contains p = true
      ↔ lower.value ≤ p.value ∧ p.value ≤ upper.value) := by
  refine ⟨rfl, rfl, ?_⟩
  simp only [PriceRange.new, PriceRange.contains, Bool.and_eq_true,
    decide_eq_true_eq, ge_iff_le]

/-- C9: `GeometricBrownianMotion::new(initial, drift, volatility, dt)` has
no seed parameter, and `generate` consumes `rand::thread_rng()` — ambient
randomness.  Two calls with byte-identical constructor arguments produce
different sequences as soon as the ambient draws differ, so runs are not
reproducible from the constructor arguments. -/
theorem C9_gbm_ambient_randomness :
    (GeometricBrownianMotion.new 100 0 ⟨1, 5⟩ ⟨1, 365⟩).generate 1 (fun _ => 2)
      ≠ (GeometricBrownianMotion.new 100 0 ⟨1, 5⟩ ⟨1, 365⟩).generate 1
        (fun _ => 3) := by
  decide

/-- C2 counterexample: in scenario S3 the three rebalances land at steps
`5`, `11`, `17` — not at `5`, `10`, `15` as claimed.  (A rebalance resets
`steps_since_rebalance` to `0` and only `Hold` steps increment it, so after
the first rebalance the cadence is `interval + 1`.) -/
theorem C2_s3_steps_counterexample :
    s3RebalanceSteps = [5, 11, 17] ∧ s3RebalanceSteps ≠ [5, 10, 15] := by
  refine ⟨by decide, ?_⟩
  intro hcontra
  exact absurd hcontra (by decide)

/-- C2 (amended): scenario S3 — 20 steps at constant price `100` with
`Periodic(interval = 5, width_pct = 0.10)` and `rebalance_cost = 1` —
yields `rebalance_count = 3` and `total_rebalance_cost = 3`, with the three
`Rebalance` events recorded at steps `5`, `11` and `17`. -/
theorem C2_s3_periodic_cadence :
    s3Run.summary.rebalance_count = 3
    ∧ s3Run.summary.total_rebalance_cost = 3
    ∧ s3RebalanceSteps = [5, 11, 17] := by
  decide

/-- C7 counterexample: with the default configuration
(`min_profit_multiplier = 2`) and parameters whose expected benefit equals
`min_profit_multiplier * estimated_tx_cost` exactly
(`|−40000| · 0.5 · 1000 = 2 · 10_000_000`), the executor refuses: the
profitability comparison in the code is strict (`>`), so at equality —
where the claim's `≥` demands it proceed — it returns `NotProfitable` and
attempts no later phase. -/
theorem C7_equality_counterexample :
    Dec.ofN estimate_tx_cost * RebalanceConfig.default.min_profit_multiplier
      ≤ estimate_benefit c7Params
    ∧ (RebalanceExecutor.execute RebalanceConfig.default false
        LifecycleTracker.new 0 99 c7Params).1.error
      = some "Rebalance not profitable"
    ∧ (RebalanceExecutor.execute RebalanceConfig.default false
        LifecycleTracker.new 0 99 c7Params).2.1 = []
    ∧ (RebalanceExecutor.execute RebalanceConfig.default false
        LifecycleTracker.new 0 99 c7Params).1.success = false := by
  refine ⟨by decide, by decide, by decide, by decide⟩

/-- C7 (amended): the rebalance executor proceeds past the profitability
check if and only if `expected_benefit > min_profit_multiplier ·
estimated_tx_cost` (strictly); otherwise it returns a `NotProfitable`
result with `success = false` and attempts none of the later phases (no
fee collection, liquidity change, close, or open). -/
theorem C7_profitability_gate (config : RebalanceConfig) (dry_run : Bool)
    (lifecycle : LifecycleTracker) (now : ℕ) (new_position_key : ℕ)
    (params : RebalanceParams) :
    ((RebalanceExecutor.execute config dry_run lifecycle now new_position_key
        params).1.error = some "Rebalance not profitable"
      ∧ (RebalanceExecutor.execute config dry_run lifecycle now
          new_position_key params).2.1 = []
      ∧ (RebalanceExecutor.execute config dry_run lifecycle now
          new_position_key params).1.success = false)
    ↔ ¬ (estimate_benefit params
        > Dec.ofN estimate_tx_cost * config.min_profit_multiplier) := by
  by_cases hp : estimate_benefit params
      > Dec.ofN estimate_tx_cost * config.min_profit_multiplier
  · simp only [RebalanceExecutor.execute, RebalanceExecutor.is_profitable,
      RebalanceExecutor.collect_fees, RebalanceExecutor.decrease_liquidity,
      RebalanceExecutor.close_position, RebalanceExecutor.open_position,
      RebalanceExecutor.increase_liquidity, hp, decide_eq_true_eq,
      decide_True, Bool.not_true, Bool.false_eq_true, if_false,
      iff_false, not_not]
    cases dry_run
    · cases hc : config.collect_fees_first <;>
        simp [hc, hp]
    · simp [hp]
  · simp [RebalanceExecutor.execute, RebalanceExecutor.is_profitable, hp]

/-- Helper: from `Closed` with `k` accumulated failures, a run of
`record_failure` calls that never reaches `max_failures` leaves the breaker
`Closed` and merely counts. -/
theorem record_failures_below_threshold (cfg : CircuitBreakerConfig) :
    ∀ (ts : List ℕ) (k : ℕ), k + ts.length < cfg.max_failures →
      CircuitBreaker.record_failures
        { CircuitBreaker.new cfg with failure_count := k } ts
      = { CircuitBreaker.new cfg with failure_count := k + ts.length } := by
  intro ts
  induction ts with
  | nil =>
    intro k _
    simp [CircuitBreaker.record_failures]
  | cons t ts ih =>
    intro k hk
    have hlt : k + 1 < cfg.max_failures := by
      simp only [List.length_cons] at hk
      omega
    have hstep : CircuitBreaker.record_failure
        { CircuitBreaker.new cfg with failure_count := k } t
        = { CircuitBreaker.new cfg with failure_count := k + 1 } := by
      simp only [CircuitBreaker.record_failure, CircuitBreaker.new]
      rw [if_neg (by omega)]
    show CircuitBreaker.record_failures _ (t :: ts) = _
    unfold CircuitBreaker.record_failures
    rw [List.foldl_cons, hstep]
    have := ih (k + 1) (by simp only [List.length_cons] at hk; omega)
    unfold CircuitBreaker.record_failures at this
    rw [this]
    have harith : k + 1 + ts.length = k + (ts.length + 1) := by omega
    rw [harith]
    rfl

/-- C6: starting from `Closed`, after `max_failures` consecutive
`record_failure` calls (the last at instant `t_open`) the breaker is
`Open` with `opened_at = t_open`; `is_allowed` returns `false` (leaving the
state `Open`) at every instant from the opening and strictly before
`recovery_timeout` has elapsed, and at any instant at or after
`t_open + recovery_timeout` it returns `true` and moves the state to
`HalfOpen`. -/
theorem C6_circuit_breaker_recovery (cfg : CircuitBreakerConfig)
    (ts : List ℕ) (t_open : ℕ)
    (hlen : (ts ++ [t_open]).length = cfg.max_failures) :
    ((CircuitBreaker.new cfg).record_failures (ts ++ [t_open])).state
        = CircuitState.Open
    ∧ ((CircuitBreaker.new cfg).record_failures (ts ++ [t_open])).opened_at
        = some t_open
    ∧ (∀ s, t_open ≤ s → s < t_open + cfg.recovery_timeout_secs →
        (((CircuitBreaker.new cfg).record_failures (ts ++ [t_open])).is_allowed
          s).1 = false
        ∧ (((CircuitBreaker.new cfg).record_failures (ts ++ [t_open])).is_allowed
            s).2.state = CircuitState.Open)
    ∧ (∀ s, t_open + cfg.recovery_timeout_secs ≤ s →
        (((CircuitBreaker.new cfg).record_failures (ts ++ [t_open])).is_allowed
          s).1 = true
        ∧ (((CircuitBreaker.new cfg).record_failures (ts ++ [t_open])).is_allowed
            s).2.state = CircuitState.HalfOpen) := by
  have hlen' : ts.length + 1 = cfg.max_failures := by simpa using hlen
  have hfold : (CircuitBreaker.new cfg).record_failures (ts ++ [t_open])
      = CircuitBreaker.record_failure
          ((CircuitBreaker.new cfg).record_failures ts) t_open := by
    unfold CircuitBreaker.record_failures
    rw [List.foldl_append]
    rfl
  have hzero : ({ CircuitBreaker.new cfg with failure_count := 0 }
      : CircuitBreaker) = CircuitBreaker.new cfg := rfl
  have hpre := record_failures_below_threshold cfg ts 0 (by omega)
  rw [hzero, Nat.zero_add] at hpre
  have hfinal : CircuitBreaker.record_failure
      { CircuitBreaker.new cfg with failure_count := ts.length } t_open
      = { state := CircuitState.Open
          config := cfg
          failure_count := 0
          success_count := 0
          opened_at := some t_open
          manually_tripped := false } := by
    simp only [CircuitBreaker.record_failure, CircuitBreaker.new]
    rw [if_pos (by omega)]
    rfl
  have hcb : (CircuitBreaker.new cfg).record_failures (ts ++ [t_open])
      = { state := CircuitState.Open
          config := cfg
          failure_count := 0
          success_count := 0
          opened_at := some t_open
          manually_tripped := false } := by
    rw [hfold, hpre, hfinal]
  refine ⟨by rw [hcb], by rw [hcb], ?_, ?_⟩
  · intro s h1 h2
    have hnot : ¬ (s - t_open ≥ cfg.recovery_timeout_secs) := by omega
    rw [hcb]
    simp [CircuitBreaker.is_allowed, hnot]
  · intro s h1
    have hge : s - t_open ≥ cfg.recovery_timeout_secs := by omega
    rw [hcb]
    simp [CircuitBreaker.is_allowed, hge]

/-- C6 witness: `max_failures = 2`, `recovery_timeout = 300 s`, failures at
instants `10` and `20`: the breaker is `Open`; at `t_open + 299` it still
refuses; at `t_open + 301` it allows and is `HalfOpen`. -/
theorem C6_circuit_breaker_recovery_witness :
    (([10] ++ [20]).length = s5Config.max_failures)
    ∧ ((CircuitBreaker.new s5Config).record_failures ([10] ++ [20])).state
        = CircuitState.Open
    ∧ (((CircuitBreaker.new s5Config).record_failures
        ([10] ++ [20])).is_allowed 319).1 = false
    ∧ (((CircuitBreaker.new s5Config).record_failures
        ([10] ++ [20])).is_allowed 321).1 = true
    ∧ (((CircuitBreaker.new s5Config).record_failures
        ([10] ++ [20])).is_allowed 321).2.state = CircuitState.HalfOpen := by
  have h := C6_circuit_breaker_recovery s5Config [10] 20 (by decide)
  exact ⟨by decide, h.1,
    (h.2.2.1 319 (by decide) (by decide)).1,
    (h.2.2.2 321 (by decide)).1,
    (h.2.2.2 321 (by decide)).2⟩

/-- Helper: no interleaving of recording operations that never opens
position `p` can create a summary for `p`. -/
theorem tracker_no_open_summary_none (p : ℕ) :
    ∀ (ops : List TrackerOp) (tr : LifecycleTracker),
      tr.summaries p = none → (∀ op ∈ ops, op.opens p = false) →
      (ops.foldl TrackerOp.apply tr).summaries p = none := by
  intro ops
  induction ops with
  | nil => intro tr h _; exact h
  | cons op ops ih =>
    intro tr h hall
    have hop : op.opens p = false := hall op (List.mem_cons_self _ _)
    have hstep : (TrackerOp.apply tr op).summaries p = none := by
      cases op with
      | openPos q pool data now =>
        have hq : ¬ (p = q) := by
          simp only [TrackerOp.opens, beq_eq_false_iff_ne, ne_eq] at hop
          exact fun hc => hop hc.symm
        simp [TrackerOp.apply, LifecycleTracker.record_position_opened,
          LifecycleTracker.add_event, hq, h]
      | liqChange q pool data now =>
        simp [TrackerOp.apply, LifecycleTracker.record_liquidity_change,
          LifecycleTracker.add_event, h]
      | rebal q pool data now =>
        simp only [TrackerOp.apply, LifecycleTracker.record_rebalance,
          LifecycleTracker.add_event]
        by_cases hpq : p = q
        · subst hpq; simp [h]
        · simp [hpq, h]
      | fees q pool data now =>
        simp only [TrackerOp.apply, LifecycleTracker.record_fees_collected,
          LifecycleTracker.add_event]
        by_cases hpq : p = q
        · subst hpq; simp [h]
        · simp [hpq, h]
      | closePos q pool data now =>
        simp only [TrackerOp.apply, LifecycleTracker.record_position_closed,
          LifecycleTracker.add_event]
        by_cases hpq : p = q
        · subst hpq; simp [h]
        · simp [hpq, h]
    exact ih _ hstep (fun o ho => hall o (List.mem_cons_of_mem _ ho))

/-- C10: after any sequence of recording operations none of which is
`record_position_opened` on position `p`, the tracker has no summary for
`p`, and calling `record_rebalance`, `record_fees_collected`, or
`record_position_closed` on `p` appends exactly one event to `p`'s event
log, leaves every position's summary unchanged (so `get_summary p` is still
`none`), and leaves every other position's event log untouched. -/
theorem C10_tracker_frame (ops : List TrackerOp) (p : ℕ)
    (hno : ∀ op ∈ ops, op.opens p = false) (pool : ℕ)
    (rdata : RebalanceData) (fdata : FeesCollectedData)
    (cdata : PositionClosedData) (now : ℕ) :
    (ops.foldl TrackerOp.apply LifecycleTracker.new).get_summary p = none
    ∧ (∀ q, ((ops.foldl TrackerOp.apply LifecycleTracker.new).record_rebalance
          p pool rdata now).summaries q
        = (ops.foldl TrackerOp.apply LifecycleTracker.new).summaries q)
    ∧ ((ops.foldl TrackerOp.apply LifecycleTracker.new).record_rebalance
        p pool rdata now).events p
      = (ops.foldl TrackerOp.apply LifecycleTracker.new).events p
        ++ [LifecycleEvent.new .rebalanced p pool (.rebalance rdata) now]
    ∧ (∀ q, q ≠ p → ((ops.foldl TrackerOp.apply LifecycleTracker.new).record_rebalance
          p pool rdata now).events q
        = (ops.foldl TrackerOp.apply LifecycleTracker.new).events q)
    ∧ (∀ q, ((ops.foldl TrackerOp.apply LifecycleTracker.new).record_fees_collected
          p pool fdata now).summaries q
        = (ops.foldl TrackerOp.apply LifecycleTracker.new).summaries q)
    ∧ ((ops.foldl TrackerOp.apply LifecycleTracker.new).record_fees_collected
        p pool fdata now).events p
      = (ops.foldl TrackerOp.apply LifecycleTracker.new).events p
        ++ [LifecycleEvent.new .feesCollected p pool (.feesCollected fdata) now]
    ∧ (∀ q, q ≠ p → ((ops.foldl TrackerOp.apply LifecycleTracker.new).record_fees_collected
          p pool fdata now).events q
        = (ops.foldl TrackerOp.apply LifecycleTracker.new).events q)
    ∧ (∀ q, ((ops.foldl TrackerOp.apply LifecycleTracker.new).record_position_closed
          p pool cdata now).summaries q
        = (ops.foldl TrackerOp.apply LifecycleTracker.new).summaries q)
    ∧ ((ops.foldl TrackerOp.apply LifecycleTracker.new).record_position_closed
        p pool cdata now).events p
      = (ops.foldl TrackerOp.apply LifecycleTracker.new).events p
        ++ [LifecycleEvent.new .positionClosed p pool (.positionClosed cdata) now]
    ∧ (∀ q, q ≠ p → ((ops.foldl TrackerOp.apply LifecycleTracker.new).record_position_closed
          p pool cdata now).events q
        = (ops.foldl TrackerOp.apply LifecycleTracker.new).events q) := by
  have hsum : (ops.foldl TrackerOp.apply LifecycleTracker.new).summaries p = none :=
    tracker_no_open_summary_none p ops LifecycleTracker.new rfl hno
  refine ⟨hsum, ?_, ?_, ?_, ?_, ?_, ?_, ?_, ?_, ?_⟩
  · intro q
    simp only [LifecycleTracker.record_rebalance, LifecycleTracker.add_event]
    by_cases hq : q = p
    · subst hq; simp [hsum]
    · simp [hq]
  · simp [LifecycleTracker.record_rebalance, LifecycleTracker.add_event]
  · intro q hq
    simp [LifecycleTracker.record_rebalance, LifecycleTracker.add_event, hq]
  · intro q
    simp only [LifecycleTracker.record_fees_collected, LifecycleTracker.add_event]
    by_cases hq : q = p
    · subst hq; simp [hsum]
    · simp [hq]
  · simp [LifecycleTracker.record_fees_collected, LifecycleTracker.add_event]
  · intro q hq
    simp [LifecycleTracker.record_fees_collected, LifecycleTracker.add_event, hq]
  · intro q
    simp only [LifecycleTracker.record_position_closed, LifecycleTracker.add_event]
    by_cases hq : q = p
    · subst hq; simp [hsum]
    · simp [hq]
  · simp [LifecycleTracker.record_position_closed, LifecycleTracker.add_event]
  · intro q hq
    simp [LifecycleTracker.record_position_closed, LifecycleTracker.add_event, hq]

/-- C10 witness: open position `1` and collect fees on it, then exercise
the three recording operations on the never-opened position `2`. -/
theorem C10_tracker_frame_witness :
    (∀ op ∈ ([TrackerOp.openPos 1 7 sampleOpenData 0,
        TrackerOp.fees 1 7 sampleFeesData 5] : List TrackerOp),
      op.opens 2 = false)
    ∧ (([TrackerOp.openPos 1 7 sampleOpenData 0,
        TrackerOp.fees 1 7 sampleFeesData 5] : List TrackerOp).foldl
        TrackerOp.apply LifecycleTracker.new).get_summary 2 = none :=
  ⟨by decide,
    (C10_tracker_frame
      [TrackerOp.openPos 1 7 sampleOpenData 0, TrackerOp.fees 1 7 sampleFeesData 5]
      2 (by decide) 7 sampleRebalanceData sampleFeesData sampleCloseData 9).1⟩

/-- Helper: one simulator step preserves the range-history invariant (the
last entry of `range_history` carries the current range). -/
theorem stratStep_range_inv (ilFn : IlFn) (config : SimulationConfig)
    (entry : Price) (strategy : Strategy) (volume_model : VolumeFn)
    (liquidity_model : LiquidityFn) (st : StratState) (x : ℕ × Price)
    (h : st.range_history.getLast?.map Prod.snd = some st.current_range) :
    (stratStep ilFn config entry strategy volume_model liquidity_model
        st x).range_history.getLast?.map Prod.snd
      = some (stratStep ilFn config entry strategy volume_model liquidity_model
          st x).current_range := by
  by_cases hc : st.closed = true
  · simpa [stratStep, hc] using h
  · have hcf : st.closed = false := by revert hc; cases st.closed <;> simp
    simp only [stratStep, hcf, Bool.false_eq_true, if_false]
    split
    · exact h
    · simp [stratStepTail, List.getLast?_concat]
    · simpa [stratStepTail] using h

/-- Helper: the range-history invariant holds after the whole fold. -/
theorem strat_fold_range_inv (ilFn : IlFn) (config : SimulationConfig)
    (entry : Price) (strategy : Strategy) (volume_model : VolumeFn)
    (liquidity_model : LiquidityFn) :
    ∀ (l : List (ℕ × Price)) (st : StratState),
      st.range_history.getLast?.map Prod.snd = some st.current_range →
      (l.foldl (stratStep ilFn config entry strategy volume_model
          liquidity_model) st).range_history.getLast?.map Prod.snd
        = some (l.foldl (stratStep ilFn config entry strategy volume_model
            liquidity_model) st).current_range := by
  intro l
  induction l with
  | nil => intro st h; exact h
  | cons x l ih =>
    intro st h
    exact ih _ (stratStep_range_inv ilFn config entry strategy volume_model
      liquidity_model st x h)

/-- Helper: membership in an if-then-else of lists. -/
theorem mem_ite_list {α : Type} {c : Prop} [Decidable c] {l1 l2 : List α}
    {e : α} (he : e ∈ (if c then l1 else l2)) : e ∈ l1 ∨ e ∈ l2 := by
  split at he
  · exact Or.inl he
  · exact Or.inr he

/-- Helper: the range-transition bookkeeping at the top of the loop body
only ever adds `BackInRange` / `OutOfRange` events. -/
theorem transition_events_mem (st : StratState) (step : ℕ) (price : Price) :
    ∀ e ∈ (if is_in_range price.value st.current_range && !st.was_in_range then
        st.events ++ [SimulationEvent.back_in_range step price st.current_range]
      else if !(is_in_range price.value st.current_range) && st.was_in_range then
        st.events ++ [SimulationEvent.out_of_range step price st.current_range]
      else st.events),
      e ∈ st.events ∨ e.event_type = SimulationEventType.backInRange
        ∨ e.event_type = SimulationEventType.outOfRange := by
  intro e he
  rcases mem_ite_list he with h | h
  · rcases List.mem_append.mp h with h1 | h1
    · exact Or.inl h1
    · simp only [List.mem_singleton] at h1
      subst h1
      exact Or.inr (Or.inl rfl)
  · rcases mem_ite_list h with h1 | h1
    · rcases List.mem_append.mp h1 with h2 | h2
      · exact Or.inl h2
      · simp only [List.mem_singleton] at h2
        subst h2
        exact Or.inr (Or.inr rfl)
    · exact Or.inl h1

/-- Helper: the fee-accrual tail of the loop body only ever adds
`FeeCollection` events. -/
theorem stratStepTail_events_mem (config : SimulationConfig)
    (volume_model : VolumeFn) (liquidity_model : LiquidityFn) (step : ℕ)
    (price : Price) (il_decimal : Dec) (stA : StratState) :
    ∀ e ∈ (stratStepTail config volume_model liquidity_model step price
        il_decimal stA).events,
      e ∈ stA.events ∨ e.event_type = SimulationEventType.feeCollection := by
  intro e he
  simp only [stratStepTail] at he
  rcases mem_ite_list he with h | h
  · rcases mem_ite_list h with h1 | h1
    · rcases List.mem_append.mp h1 with h2 | h2
      · exact Or.inl h2
      · simp only [List.mem_singleton] at h2
        subst h2
        exact Or.inr rfl
    · exact Or.inl h1
  · exact Or.inl h

/-- Helper: one simulator step preserves the close invariant: any
`PositionClosed` event in the log implies the loop has stopped and the
event carries the (frozen) cumulative fees. -/
theorem stratStep_close_inv (ilFn : IlFn) (config : SimulationConfig)
    (entry : Price) (strategy : Strategy) (volume_model : VolumeFn)
    (liquidity_model : LiquidityFn) (st : StratState) (x : ℕ × Price)
    (h : ∀ e ∈ st.events, e.event_type = SimulationEventType.positionClosed →
      st.closed = true ∧ e.data.closedFees = some st.cumulative_fees) :
    ∀ e ∈ (stratStep ilFn config entry strategy volume_model liquidity_model
        st x).events,
      e.event_type = SimulationEventType.positionClosed →
      (stratStep ilFn config entry strategy volume_model liquidity_model
          st x).closed = true
      ∧ e.data.closedFees = some (stratStep ilFn config entry strategy
          volume_model liquidity_model st x).cumulative_fees := by
  by_cases hc : st.closed = true
  · simpa [stratStep, hc] using h
  · have hcf : st.closed = false := by revert hc; cases st.closed <;> simp
    have hold : ∀ e ∈ st.events,
        e.event_type ≠ SimulationEventType.positionClosed := by
      intro e he hty
      have := (h e he hty).1
      rw [hcf] at this
      exact Bool.false_ne_true this
    have htype : ∀ {e : SimulationEvent},
        e ∈ st.events ∨ e.event_type = SimulationEventType.backInRange
          ∨ e.event_type = SimulationEventType.outOfRange →
        e.event_type ≠ SimulationEventType.positionClosed := by
      intro e hmem hty
      rcases hmem with h1 | h1 | h1
      · exact hold e h1 hty
      · rw [hty] at h1; exact absurd h1 (by decide)
      · rw [hty] at h1; exact absurd h1 (by decide)
    simp only [stratStep, hcf, Bool.false_eq_true, if_false]
    split
    · -- close arm
      intro e he hty
      refine ⟨rfl, ?_⟩
      rcases List.mem_append.mp he with h1 | h1
      · exact absurd hty (htype (transition_events_mem st x.1 x.2 e h1))
      · simp only [List.mem_singleton] at h1
        subst h1
        rfl
    · -- rebalance arm
      intro e he hty
      exfalso
      rcases stratStepTail_events_mem config volume_model liquidity_model
        x.1 x.2 _ _ e he with h1 | h1
      · rcases List.mem_append.mp h1 with h2 | h2
        · exact htype (transition_events_mem st x.1 x.2 e h2) hty
        · simp only [List.mem_singleton] at h2
          subst h2
          simp [SimulationEvent.rebalance] at hty
      · rw [hty] at h1
        exact absurd h1 (by decide)
    · -- hold arm
      intro e he hty
      exfalso
      rcases stratStepTail_events_mem config volume_model liquidity_model
        x.1 x.2 _ _ e he with h1 | h1
      · exact htype (transition_events_mem st x.1 x.2 e h1) hty
      · rw [hty] at h1
        exact absurd h1 (by decide)

/-- Helper: the close invariant holds after the whole fold. -/
theorem strat_fold_close_inv (ilFn : IlFn) (config : SimulationConfig)
    (entry : Price) (strategy : Strategy) (volume_model : VolumeFn)
    (liquidity_model : LiquidityFn) :
    ∀ (l : List (ℕ × Price)) (st : StratState),
      (∀ e ∈ st.events, e.event_type = SimulationEventType.positionClosed →
        st.closed = true ∧ e.data.closedFees = some st.cumulative_fees) →
      ∀ e ∈ (l.foldl (stratStep ilFn config entry strategy volume_model
          liquidity_model) st).events,
        e.event_type = SimulationEventType.positionClosed →
        (l.foldl (stratStep ilFn config entry strategy volume_model
            liquidity_model) st).closed = true
        ∧ e.data.closedFees = some (l.foldl (stratStep ilFn config entry
            strategy volume_model liquidity_model) st).cumulative_fees := by
  intro l
  induction l with
  | nil => intro st h; exact h
  | cons x l ih =>
    intro st h
    exact ih _ (stratStep_close_inv ilFn config entry strategy volume_model
      liquidity_model st x h)

/-- C3 counterexample: with prices `[100, 144]`, range `[81, 121]` and a
strategy that closes at step 0, the close event is recorded at step 0 with
zero accumulated fees and the IL at the closing step's price is exactly
zero — yet the summary's `final_value` is not
`C₀ − C₀·|0| + fees − cost = 1000`: it is computed from the IL at the last
price `144` of the fully generated path. -/
theorem C3_close_counterexample :
    c3Run.summary.total_steps = 2
    ∧ (c3Run.events.filter
        (fun e => e.event_type == SimulationEventType.positionClosed)).map
        (fun e => (e.step, e.data.closedFees)) = [(0, some 0)]
    ∧ ilConcentratedDec (Price.new 100).value (Price.new 100).value
        (Price.new 81).value (Price.new 121).value = some 0
    ∧ c3Run.summary.final_value
      ≠ c3Config.initial_capital
        - c3Config.initial_capital * (Dec.abs 0)
        + c3Run.summary.total_fees
        - c3Run.summary.total_rebalance_cost
    ∧ c3Run.summary.final_il_pct
      = (ilConcentratedDec (Price.new 100).value (Price.new 144).value
          (Price.new 81).value (Price.new 121).value).getD 0 := by
  refine ⟨by decide, by decide, by decide, ?_, by decide⟩
  intro hc
  exact absurd hc (by decide)

/-- C3 (amended): when a strategy returns `Close` at step `k < N−1`, fee
accrual stops — every `PositionClosed` event carries exactly the summary's
`total_fees` — but the summary's `final_value` is computed from the IL at
the last price of the fully generated path (evaluated with the range in
effect when the run stopped, the last entry of `range_history`), not from
the IL at the closing step's price. -/
theorem C3_close_semantics (ilFn : IlFn) (config : SimulationConfig)
    (prices : List Price) (volume_model : VolumeFn)
    (liquidity_model : LiquidityFn) (strategy : Strategy)
    (h : prices ≠ []) :
    (∀ e ∈ (simulate_with_strategy ilFn config prices volume_model
        liquidity_model strategy).events,
      e.event_type = SimulationEventType.positionClosed →
      e.data.closedFees = some (simulate_with_strategy ilFn config prices
        volume_model liquidity_model strategy).summary.total_fees)
    ∧ (∀ stp rng,
        (simulate_with_strategy ilFn config prices volume_model
          liquidity_model strategy).range_history.getLast? = some (stp, rng) →
        (simulate_with_strategy ilFn config prices volume_model
            liquidity_model strategy).summary.final_il_pct
          = (ilFn (simulate_with_strategy ilFn config prices volume_model
                liquidity_model strategy).summary.entry_price.value
              (simulate_with_strategy ilFn config prices volume_model
                liquidity_model strategy).summary.final_price.value
              rng.lower_price.value rng.upper_price.value).getD 0
        ∧ (simulate_with_strategy ilFn config prices volume_model
            liquidity_model strategy).summary.final_value
          = config.initial_capital
            - config.initial_capital
              * ((ilFn (simulate_with_strategy ilFn config prices volume_model
                    liquidity_model strategy).summary.entry_price.value
                  (simulate_with_strategy ilFn config prices volume_model
                    liquidity_model strategy).summary.final_price.value
                  rng.lower_price.value rng.upper_price.value).getD 0).abs
            + (simulate_with_strategy ilFn config prices volume_model
                liquidity_model strategy).summary.total_fees
            - (simulate_with_strategy ilFn config prices volume_model
                liquidity_model strategy).summary.total_rebalance_cost) := by
  rcases prices with _ | ⟨entry, rest⟩
  · exact absurd rfl h
  · have hinv0 : ∀ e ∈ (stratInitState config entry).events,
        e.event_type = SimulationEventType.positionClosed →
        (stratInitState config entry).closed = true
        ∧ e.data.closedFees = some (stratInitState config entry).cumulative_fees := by
      intro e he hty
      simp only [stratInitState, List.mem_singleton] at he
      subst he
      simp [SimulationEvent.position_opened] at hty
    have hclose := strat_fold_close_inv ilFn config entry strategy volume_model
      liquidity_model ((entry :: rest).enum) (stratInitState config entry) hinv0
    have hrange := strat_fold_range_inv ilFn config entry strategy volume_model
      liquidity_model ((entry :: rest).enum) (stratInitState config entry)
      (by simp [stratInitState])
    constructor
    · intro e he hty
      rcases mem_ite_list he with h1 | h1
      · exact (hclose e h1 hty).2
      · rcases List.mem_append.mp h1 with h2 | h2
        · exact (hclose e h2 hty).2
        · simp only [List.mem_singleton] at h2
          subst h2
          rfl
    · intro stp rng hget
      have hget' : ((entry :: rest).enum.foldl
          (stratStep ilFn config entry strategy volume_model liquidity_model)
          (stratInitState config entry)).range_history.getLast?
          = some (stp, rng) := hget
      have hr2 := hrange
      rw [hget'] at hr2
      simp only [Option.map_some'] at hr2
      have hrng := Option.some.inj hr2
      rw [hrng]
      exact ⟨rfl, rfl⟩

/-- C3 witness: the amended close semantics applied to the concrete
close-at-step-0 run (the run never rebalances, so the last range-history
entry is the initial range). -/
theorem C3_close_semantics_witness :
    (([Price.new 100, Price.new 144] : List Price) ≠ [])
    ∧ c3Run.range_history.getLast?
      = some (0, PriceRange.new (Price.new 81) (Price.new 121))
    ∧ c3Run.summary.final_il_pct
      = (ilConcentratedDec c3Run.summary.entry_price.value
          c3Run.summary.final_price.value
          (PriceRange.new (Price.new 81) (Price.new 121)).lower_price.value
          (PriceRange.new (Price.new 81) (Price.new 121)).upper_price.value).getD
          0 :=
  ⟨by decide, by decide,
    ((C3_close_semantics ilConcentratedDec c3Config
      [Price.new 100, Price.new 144] (ConstantVolume 10000)
      (ConstantLiquidity 1000000) closeAlways (by decide)).2 0
      (PriceRange.new (Price.new 81) (Price.new 121)) (by decide)).1⟩

end CLMM
